import Mathlib

/-!
Verification development for the university-department content website
(data-access layer `lib/news.ts`, `lib/faculty.ts`, the navigation assembly,
the query executor `lib/db.ts`, and the JSON API routes for news and faculty).

The TypeScript source is shallowly embedded: each repository function becomes
a pure Lean function over an explicit database state (a list of rows plus a
fresh-id counter and a clock), each API route becomes a function from the
parsed request pieces (and an abstract repository outcome, standing for the
possibly-throwing async call) to a response value.  JavaScript peculiarities
that the code relies on (truthiness of strings and numbers, `parseInt`
prefix parsing, `x || null` coercion, `??` defaulting, `String.trim`) are
modelled explicitly.  The SQL engine is external to the repository; the
statements the code builds (`SELECT ... WHERE`, `ILIKE`, `= ANY`, `LIMIT`,
`OFFSET`, `INSERT ... RETURNING`) are given their standard relational
semantics over the row lists, with `SERIAL` ids and column `DEFAULT`s taken
from the schema in the design document (news: `view_count DEFAULT 0`,
`published_at`/`updated_at DEFAULT CURRENT_TIMESTAMP`,
`is_published DEFAULT true`, `slug UNIQUE`).
-/

/-! # JavaScript primitives -/

/-- Truthiness of a JS `string | undefined` value: `undefined` and the empty
string are falsy (`if (category)`-style guards). -/
def jsTruthyStr : Option String → Bool
  | none => false
  | some s => s ≠ ""

/-- The `x || null` idiom applied to an optional string field: an absent value
stays absent and a present empty string is coerced to `null` (absent);
any other string is kept. -/
def jsOrNull : Option String → Option String
  | none => none
  | some s => if s = "" then none else some s

/-- Characters treated as whitespace by the model of `String.prototype.trim`. -/
def isJsSpace (c : Char) : Bool :=
  c == ' ' || c == '\t' || c == '\n' || c == '\r'

/-- Model of JS `String.prototype.trim`: strip leading and trailing
whitespace. -/
def jsTrim (s : String) : String :=
  ⟨((s.data.dropWhile isJsSpace).reverse.dropWhile isJsSpace).reverse⟩

/-- Decimal digit test used by the `parseInt` model. -/
def isDigitChar (c : Char) : Bool :=
  '0' ≤ c && c ≤ '9'

/-- Numeric value of a digit list read left to right. -/
def digitsToNat (l : List Char) : Nat :=
  l.foldl (fun a c => a * 10 + (c.toNat - 48)) 0

/-- Model of JS `parseInt(s, 10)`: skip leading whitespace, read an optional
sign and then the longest prefix of decimal digits; `none` models `NaN`
(no digits at all). -/
def parseJsInt (s : String) : Option Int :=
  let cs := s.data.dropWhile isJsSpace
  let signRest : Int × List Char :=
    match cs with
    | '-' :: r => (-1, r)
    | '+' :: r => (1, r)
    | r => (1, r)
  let ds := signRest.2.takeWhile isDigitChar
  if ds.isEmpty then none
  else some (signRest.1 * (digitsToNat ds : Int))

/-- The guard `isNaN(id) || id < 1` applied to the result of the `parseInt`
model: `true` when the id path parameter is rejected by the routes. -/
def jsIdInvalid (s : String) : Bool :=
  match parseJsInt s with
  | none => true
  | some n => n < 1

/-- Occurrence test for one character list inside another, used to model
JS `String.prototype.includes`. -/
def listHasInfix (needle : List Char) : List Char → Bool
  | [] => needle.isEmpty
  | c :: t => needle.isPrefixOf (c :: t) || listHasInfix needle t

/-- Model of JS `s.includes(sub)`. -/
def strIncludes (s sub : String) : Bool :=
  listHasInfix sub.data s.data

/-! # Query executor (`lib/db.ts`)

The Neon driver call `sql(queryText, params)` is abstracted as an
`Except String (List α)`: either the row list it resolves to, or the message
of the error it throws. -/

/-- Embedding of `query` from `lib/db.ts`: return the driver's rows, or wrap
a driver error into `Database operation failed: <message>`. -/
def query {α : Type} (driver : Except String (List α)) : Except String (List α) :=
  match driver with
  | .ok result => .ok result
  | .error e => .error ("Database operation failed: " ++ e)

/-- Embedding of `queryOne` from `lib/db.ts`: call `query` and return
`results[0] || null` (rows are records, hence truthy; the first row when one
exists, else the absent marker), rethrowing any error unchanged. -/
def queryOne {α : Type} (driver : Except String (List α)) : Except String (Option α) :=
  match query driver with
  | .ok results => .ok results.head?
  | .error e => .error e

/-! # Slug validation (`/^[a-z0-9-_]+$/` in the news routes) -/

/-- Membership in the character class `[a-z0-9-_]`. -/
def isSlugChar (c : Char) : Bool :=
  ('a' ≤ c && c ≤ 'z') || ('0' ≤ c && c ≤ '9') || c == '-' || c == '_'

/-- Embedding of `/^[a-z0-9-_]+$/.test(slug)`: the whole string is a
non-empty run of slug characters. -/
def slugRegexTest (s : String) : Bool :=
  !s.data.isEmpty && s.data.all isSlugChar

/-! # ORDER BY model

The SQL `ORDER BY` clauses are modelled by a stable insertion sort with a
boolean "may come first" comparison. -/

/-- Insert one element into an already sorted list, keeping it after earlier
equal elements (stability). -/
def insertSorted {α : Type} (le : α → α → Bool) (a : α) : List α → List α
  | [] => [a]
  | b :: l => if le b a then b :: insertSorted le a l else a :: b :: l

/-- Stable sort by the comparison `le`, modelling `ORDER BY`. -/
def orderBy {α : Type} (le : α → α → Bool) : List α → List α
  | [] => []
  | a :: l => insertSorted le a (orderBy le l)

/-! # News repository (`lib/news.ts`)

Timestamps are modelled as integers; `CURRENT_TIMESTAMP` is the database
state's clock.  The `news` table has `id SERIAL PRIMARY KEY`,
`slug UNIQUE`, `published_at`/`updated_at DEFAULT CURRENT_TIMESTAMP`,
`is_published DEFAULT true`, `view_count DEFAULT 0`. -/

/-- A row of the `news` table, in the camelCase shape the queries return. -/
structure NewsRow where
  id : Int
  title : String
  slug : String
  summary : Option String
  content : String
  thumbnailUrl : Option String
  author : Option String
  category : Option String
  publishedAt : Int
  updatedAt : Int
  isPublished : Bool
  viewCount : Int
  tags : Option (List String)
deriving DecidableEq, Repr

/-- The state of the `news` table: its rows, the next `SERIAL` id, and the
clock used for `CURRENT_TIMESTAMP`. -/
structure NewsDb where
  rows : List NewsRow
  nextId : Int
  now : Int
deriving DecidableEq, Repr

/-- The `WHERE is_published = true [AND category = $1]` predicate of
`getNewsList`; the category filter is appended only when `category` is
truthy, and `category = $1` is false on a `NULL` column. -/
def newsMatches (category : Option String) (r : NewsRow) : Bool :=
  r.isPublished && (if jsTruthyStr category then r.category == some (category.getD "") else true)

/-- The `ORDER BY published_at DESC` comparison. -/
def newsLe (a b : NewsRow) : Bool :=
  b.publishedAt ≤ a.publishedAt

/-- Result shape `{ items, total }` of `getNewsList`. -/
structure NewsListResult where
  items : List NewsRow
  total : Int
deriving DecidableEq, Repr

/-- Embedding of `getNewsList(page, pageSize, category)`: filter the published
rows (optionally by category), order by `published_at DESC`, apply
`OFFSET (page-1)*pageSize` then `LIMIT pageSize`, and run the `COUNT(*)`
statement under the same filter predicate. -/
def getNewsList (db : NewsDb) (page pageSize : Int) (category : Option String) :
    NewsListResult :=
  let offset := (page - 1) * pageSize
  let items :=
    ((orderBy newsLe (db.rows.filter (newsMatches category))).drop offset.toNat).take
      pageSize.toNat
  let total := (db.rows.filter (newsMatches category)).length
  ⟨items, (total : Int)⟩

/-- Embedding of `getNewsById`: `queryOne` of `SELECT ... WHERE id = $1`,
i.e. the first row with the given id, or the absent marker. -/
def getNewsById (db : NewsDb) (id : Int) : Option NewsRow :=
  db.rows.find? (fun r => r.id == id)

/-- The repository-level input of `createNews` (the `Omit<NewsItem, 'id' |
'viewCount' | 'publishedAt' | 'updatedAt'>` argument). -/
structure NewsCreateInput where
  title : String
  slug : String
  summary : Option String
  content : String
  thumbnailUrl : Option String
  author : Option String
  category : Option String
  isPublished : Bool
  tags : Option (List String)
deriving DecidableEq, Repr

/-- Embedding of `createNews`: `INSERT ... RETURNING` with the parameter list
of the source (optional string fields passed through `x || null`, `tags`
passed as is since an array is truthy), `slug UNIQUE` enforced by the store
(a violation throws a message containing "duplicate"), and the schema
defaults `id = nextval`, `published_at = updated_at = CURRENT_TIMESTAMP`,
`view_count = 0`. -/
def createNews (db : NewsDb) (news : NewsCreateInput) :
    Except String (NewsDb × NewsRow) :=
  if db.rows.any (fun r => r.slug == news.slug) then
    .error "duplicate key value violates unique constraint news_slug_key"
  else
    let row : NewsRow :=
      ⟨db.nextId, news.title, news.slug, jsOrNull news.summary, news.content,
        jsOrNull news.thumbnailUrl, jsOrNull news.author, jsOrNull news.category,
        db.now, db.now, news.isPublished, 0, news.tags⟩
    .ok (⟨db.rows ++ [row], db.nextId + 1, db.now⟩, row)

/-- The partial-update argument of `updateNews`: a field is `some` exactly
when it is present (not `undefined`) in the JS object. -/
structure NewsUpdate where
  title : Option String
  slug : Option String
  summary : Option String
  content : Option String
  thumbnailUrl : Option String
  author : Option String
  category : Option String
  isPublished : Option Bool
  tags : Option (Option (List String))
deriving DecidableEq, Repr

/-- The update object with no recognized fields present. -/
def NewsUpdate.empty : NewsUpdate :=
  ⟨none, none, none, none, none, none, none, none, none⟩

/-- The `SET` clauses `updateNews` accumulates, one per present field, in
source order, as row transformers. -/
def newsUpdateFields (news : NewsUpdate) : List (NewsRow → NewsRow) :=
  (match news.title with | some v => [fun r => { r with title := v }] | none => []) ++
  (match news.slug with | some v => [fun r => { r with slug := v }] | none => []) ++
  (match news.summary with | some v => [fun r => { r with summary := some v }] | none => []) ++
  (match news.content with | some v => [fun r => { r with content := v }] | none => []) ++
  (match news.thumbnailUrl with | some v => [fun r => { r with thumbnailUrl := some v }] | none => []) ++
  (match news.author with | some v => [fun r => { r with author := some v }] | none => []) ++
  (match news.category with | some v => [fun r => { r with category := some v }] | none => []) ++
  (match news.isPublished with | some v => [fun r => { r with isPublished := v }] | none => []) ++
  (match news.tags with | some v => [fun r => { r with tags := v }] | none => [])

/-- Embedding of `updateNews`: with zero present fields, short-circuit to a
plain `getNewsById` (no UPDATE statement, database unchanged); otherwise
apply the `SET` clauses plus `updated_at = CURRENT_TIMESTAMP` to the matching
row and return it (`RETURNING`), or the absent marker when no row matches.
Setting the slug to one held by a different row violates `slug UNIQUE`. -/
def updateNews (db : NewsDb) (id : Int) (news : NewsUpdate) :
    Except String (NewsDb × Option NewsRow) :=
  let fields := newsUpdateFields news
  if fields.isEmpty then
    .ok (db, getNewsById db id)
  else
    if (match news.slug with
        | some s => db.rows.any (fun r => r.slug == s && !(r.id == id))
        | none => false) then
      .error "duplicate key value violates unique constraint news_slug_key"
    else
      let apply := fun r =>
        { fields.foldl (fun acc f => f acc) r with updatedAt := db.now }
      let rows := db.rows.map (fun r => if r.id == id then apply r else r)
      .ok (⟨rows, db.nextId, db.now⟩, (db.rows.find? (fun r => r.id == id)).map apply)

/-- Embedding of `deleteNews`: `DELETE ... WHERE id = $1 RETURNING id`;
true exactly when a row was deleted. -/
def deleteNews (db : NewsDb) (id : Int) : NewsDb × Bool :=
  (⟨db.rows.filter (fun r => !(r.id == id)), db.nextId, db.now⟩,
    db.rows.any (fun r => r.id == id))

/-! # ILIKE model

`x ILIKE $n` with pattern `'%' + q + '%'` is given the standard SQL LIKE
semantics: `%` matches any sequence, `_` any single character, other
characters match case-insensitively (ILIKE). -/

/-- Case-insensitive match of a LIKE pattern (first argument) against a
string (second argument), both as character lists. -/
def likeMatches : List Char → List Char → Bool
  | [], [] => true
  | '%' :: ps, [] => likeMatches ps []
  | _ :: _, [] => false
  | [], _ :: _ => false
  | p :: ps, c :: cs =>
      if p = '%' then likeMatches ps (c :: cs) || likeMatches ('%' :: ps) cs
      else if p = '_' then likeMatches ps cs
      else (p.toLower == c.toLower) && likeMatches ps cs
termination_by ps s => (ps.length, s.length)

/-- The pattern `` `%${searchQuery}%` `` the faculty search builds. -/
def likePattern (q : String) : String :=
  "%" ++ q ++ "%"

/-- Evaluation of `s ILIKE pat`. -/
def ilike (s pat : String) : Bool :=
  likeMatches pat.data s.data

/-- Case-insensitive substring occurrence: the query occurs in `s` once both
are lowercased.  This is the formal reading of "case-insensitively
contains". -/
def ciContains (s q : String) : Bool :=
  listHasInfix (q.data.map Char.toLower) (s.data.map Char.toLower)

/-! # Faculty repository (`lib/faculty.ts`) -/

/-- A row of the `faculty` table, in the camelCase shape the queries
return. -/
structure FacultyRow where
  id : Int
  name : String
  nameEn : Option String
  title : String
  category : String
  photoUrl : Option String
  email : Option String
  phone : Option String
  office : Option String
  researchInterests : Option (List String)
  education : Option String
  biography : Option String
  publications : Option String
  projects : Option String
  awards : Option String
  sortOrder : Int
  isVisible : Bool
  createdAt : Int
  updatedAt : Int
deriving DecidableEq, Repr

/-- The state of the `faculty` table. -/
structure FacultyDb where
  rows : List FacultyRow
  nextId : Int
  now : Int
deriving DecidableEq, Repr

/-- The search condition `name ILIKE $n OR name_en ILIKE $n OR title ILIKE $n
OR $n = ANY(research_interests)` with the parameter `'%' + q + '%'`; SQL
comparisons against a `NULL` column are not satisfied. -/
def facultySearchCond (q : String) (r : FacultyRow) : Bool :=
  ilike r.name (likePattern q) ||
  (match r.nameEn with | some s => ilike s (likePattern q) | none => false) ||
  ilike r.title (likePattern q) ||
  (match r.researchInterests with
   | some l => l.contains (likePattern q)
   | none => false)

/-- The `ORDER BY sort_order ASC, name ASC` comparison. -/
def facultyLe (a b : FacultyRow) : Bool :=
  a.sortOrder < b.sortOrder || (a.sortOrder == b.sortOrder && a.name ≤ b.name)

/-- Embedding of `getFacultyList(category, searchQuery)`: visible rows, the
category equality filter when `category` is truthy, the four-way search
condition when `searchQuery` is truthy, ordered by
`sort_order ASC, name ASC`. -/
def getFacultyList (db : FacultyDb) (category searchQuery : Option String) :
    List FacultyRow :=
  let base := db.rows.filter (fun r => r.isVisible)
  let afterCat :=
    if jsTruthyStr category then
      base.filter (fun r => r.category == category.getD "")
    else base
  let afterSearch :=
    if jsTruthyStr searchQuery then
      afterCat.filter (facultySearchCond (searchQuery.getD ""))
    else afterCat
  orderBy facultyLe afterSearch

/-- Embedding of `getFacultyById`. -/
def getFacultyById (db : FacultyDb) (id : Int) : Option FacultyRow :=
  db.rows.find? (fun r => r.id == id)

/-- Embedding of `searchFaculty`: delegates to `getFacultyList` with no
category. -/
def searchFaculty (db : FacultyDb) (searchQuery : String) : List FacultyRow :=
  getFacultyList db none (some searchQuery)

/-- The repository-level input of `createFaculty`. -/
structure FacultyCreateInput where
  name : String
  nameEn : Option String
  title : String
  category : String
  photoUrl : Option String
  email : Option String
  phone : Option String
  office : Option String
  researchInterests : Option (List String)
  education : Option String
  biography : Option String
  publications : Option String
  projects : Option String
  awards : Option String
  sortOrder : Int
  isVisible : Bool
deriving DecidableEq, Repr

/-- Embedding of `createFaculty`: `INSERT ... RETURNING` with the source's
parameter list — the ten optional string fields are passed through
`x || null`, `research_interests` through the same idiom (an array is truthy,
so only `undefined` becomes `NULL`), `sort_order` and `is_visible` as is;
`created_at = updated_at = CURRENT_TIMESTAMP` come from the schema. -/
def createFaculty (db : FacultyDb) (faculty : FacultyCreateInput) :
    FacultyDb × FacultyRow :=
  let row : FacultyRow :=
    ⟨db.nextId, faculty.name, jsOrNull faculty.nameEn, faculty.title,
      faculty.category, jsOrNull faculty.photoUrl, jsOrNull faculty.email,
      jsOrNull faculty.phone, jsOrNull faculty.office, faculty.researchInterests,
      jsOrNull faculty.education, jsOrNull faculty.biography,
      jsOrNull faculty.publications, jsOrNull faculty.projects,
      jsOrNull faculty.awards, faculty.sortOrder, faculty.isVisible,
      db.now, db.now⟩
  (⟨db.rows ++ [row], db.nextId + 1, db.now⟩, row)

/-- The partial-update argument of `updateFaculty`. -/
structure FacultyUpdate where
  name : Option String
  nameEn : Option String
  title : Option String
  category : Option String
  photoUrl : Option String
  email : Option String
  phone : Option String
  office : Option String
  researchInterests : Option (Option (List String))
  education : Option String
  biography : Option String
  publications : Option String
  projects : Option String
  awards : Option String
  sortOrder : Option Int
  isVisible : Option Bool
deriving DecidableEq, Repr

/-- The update object with no recognized fields present. -/
def FacultyUpdate.empty : FacultyUpdate :=
  ⟨none, none, none, none, none, none, none, none, none, none, none, none,
    none, none, none, none⟩

/-- The `SET` clauses `updateFaculty` accumulates, one per present field, in
source order. -/
def facultyUpdateFields (f : FacultyUpdate) : List (FacultyRow → FacultyRow) :=
  (match f.name with | some v => [fun r => { r with name := v }] | none => []) ++
  (match f.nameEn with | some v => [fun r => { r with nameEn := some v }] | none => []) ++
  (match f.title with | some v => [fun r => { r with title := v }] | none => []) ++
  (match f.category with | some v => [fun r => { r with category := v }] | none => []) ++
  (match f.photoUrl with | some v => [fun r => { r with photoUrl := some v }] | none => []) ++
  (match f.email with | some v => [fun r => { r with email := some v }] | none => []) ++
  (match f.phone with | some v => [fun r => { r with phone := some v }] | none => []) ++
  (match f.office with | some v => [fun r => { r with office := some v }] | none => []) ++
  (match f.researchInterests with | some v => [fun r => { r with researchInterests := v }] | none => []) ++
  (match f.education with | some v => [fun r => { r with education := some v }] | none => []) ++
  (match f.biography with | some v => [fun r => { r with biography := some v }] | none => []) ++
  (match f.publications with | some v => [fun r => { r with publications := some v }] | none => []) ++
  (match f.projects with | some v => [fun r => { r with projects := some v }] | none => []) ++
  (match f.awards with | some v => [fun r => { r with awards := some v }] | none => []) ++
  (match f.sortOrder with | some v => [fun r => { r with sortOrder := v }] | none => []) ++
  (match f.isVisible with | some v => [fun r => { r with isVisible := v }] | none => [])

/-- Embedding of `updateFaculty`: with zero present fields, short-circuit to
a plain `getFacultyById` (no UPDATE statement, database unchanged);
otherwise apply the `SET` clauses plus `updated_at = CURRENT_TIMESTAMP`. -/
def updateFaculty (db : FacultyDb) (id : Int) (f : FacultyUpdate) :
    FacultyDb × Option FacultyRow :=
  let fields := facultyUpdateFields f
  if fields.isEmpty then
    (db, getFacultyById db id)
  else
    let apply := fun r =>
      { fields.foldl (fun acc g => g acc) r with updatedAt := db.now }
    let rows := db.rows.map (fun r => if r.id == id then apply r else r)
    (⟨rows, db.nextId, db.now⟩, (db.rows.find? (fun r => r.id == id)).map apply)

/-- Embedding of `deleteFaculty`. -/
def deleteFaculty (db : FacultyDb) (id : Int) : FacultyDb × Bool :=
  (⟨db.rows.filter (fun r => !(r.id == id)), db.nextId, db.now⟩,
    db.rows.any (fun r => r.id == id))

/-! # Navigation assembly (`lib/navigation.ts`)

`getNavigationStructure` fetches the visible rows ordered by `sort_order`,
creates one node per row (keyed by id - ids are unique, `navigation.id` is
the primary key), then attaches each row to its parent's children list when
`row.parentId` is truthy and present in the map, pushes it to the root list
when `row.parentId` is falsy, and otherwise leaves it unattached.  The
functional embedding computes each node's children from the row list; the
fuel `rows.length` is enough to reproduce every node reachable from a root,
since along a parent chain ids cannot repeat without a cycle (a cyclic
clique is unreachable from the roots in the JS object graph as well). -/

/-- A row of the `navigation` table. -/
structure NavRow where
  id : Int
  label : String
  url : String
  parentId : Option Int
  sortOrder : Int
  isVisible : Bool
deriving DecidableEq, Repr

/-- Truthiness of the JS `parentId` field (`undefined`/`null` and `0` are
falsy). -/
def truthyId : Option Int → Bool
  | none => false
  | some n => n != 0

/-- The navigation tree nodes the assembly returns: a row plus computed
children. -/
inductive NavTree where
  | node (row : NavRow) (children : List NavTree)
deriving Repr

/-- The rows attached as children of the node with id `p`, in fetch order:
those whose `parentId` is truthy and equals `p`. -/
def childRows (rows : List NavRow) (p : Int) : List NavRow :=
  rows.filter (fun r => truthyId r.parentId && r.parentId.getD 0 == p)

/-- Build the node of row `r` together with its attached descendants, with
enough fuel to exhaust every acyclic chain. -/
def buildTree (rows : List NavRow) : Nat → NavRow → NavTree
  | 0, r => .node r []
  | fuel + 1, r => .node r ((childRows rows r.id).map (buildTree rows fuel))

/-- Embedding of the hierarchy assembly of `getNavigationStructure` on the
fetched row list: the returned root list holds exactly the rows with falsy
`parentId`, in fetch order, each with its computed children. -/
def buildNavigationStructure (rows : List NavRow) : List NavTree :=
  (rows.filter (fun r => !truthyId r.parentId)).map (buildTree rows rows.length)

/-- The `ORDER BY sort_order ASC` comparison of the navigation fetch. -/
def navLe (a b : NavRow) : Bool :=
  a.sortOrder ≤ b.sortOrder

/-- The row list the navigation query returns: visible rows ordered by
`sort_order`. -/
def navFetch (rows : List NavRow) : List NavRow :=
  orderBy navLe (rows.filter (fun r => r.isVisible))

/-- Embedding of `getNavigationStructure` on the success path (the store
failure path falls back to a hard-coded default and is out of scope here). -/
def getNavigationStructure (rows : List NavRow) : List NavTree :=
  buildNavigationStructure (navFetch rows)

/-- Flatten one navigation tree, node before its children (preorder). -/
def flattenTree : NavTree → List NavRow
  | .node r children => r :: (children.attach.map (fun c => flattenTree c.1)).flatten
decreasing_by
  have := List.sizeOf_lt_of_mem c.2
  simp only [NavTree.node.sizeOf_spec]
  omega

/-- Flatten a navigation forest. -/
def flattenForest (forest : List NavTree) : List NavRow :=
  (forest.map flattenTree).flatten

/-- Lookup of a row's parent node: `navMap.get(row.parentId)` when
`row.parentId` is truthy. -/
def parentRow (rows : List NavRow) (r : NavRow) : Option NavRow :=
  if truthyId r.parentId then
    rows.find? (fun p => p.id == r.parentId.getD 0)
  else none

/-- Fuel-bounded distance from a row to a falsy-parent root along parent
lookups; `none` when the chain is broken or cyclic within the fuel. -/
def rowDepth (rows : List NavRow) : Nat → NavRow → Option Nat
  | 0, r => if truthyId r.parentId then none else some 0
  | fuel + 1, r =>
      if truthyId r.parentId then
        match rows.find? (fun p => p.id == r.parentId.getD 0) with
        | none => none
        | some p => (rowDepth rows fuel p).map (· + 1)
      else some 0

/-- The `k`-th ancestor of a row along parent lookups. -/
def ancRow (rows : List NavRow) : Nat → NavRow → Option NavRow
  | 0, t => some t
  | k + 1, t =>
      match ancRow rows k t with
      | some s => parentRow rows s
      | none => none

/-! # API routes

Request bodies are JSON objects; the routes only read a fixed set of keys,
so a body is embedded as a record of `Option JsonVal` fields (`none` =
`undefined`).  `request.json()` may throw, hence the `Except String` wrapper
around bodies; repository calls may throw, hence the abstract
`Except String` repository arguments. -/

/-- The JSON values relevant to the routes' `typeof` dispatch. -/
inductive JsonVal where
  | str (s : String)
  | num (n : Int)
  | bool (b : Bool)
  | arr (elems : List JsonVal)
  | null

/-- JS truthiness of a JSON value (`!body.field` guards): empty string, `0`,
`false` and `null` are falsy; arrays are objects, hence truthy. -/
def jsonTruthy : JsonVal → Bool
  | .str s => s ≠ ""
  | .num n => n != 0
  | .bool b => b
  | .arr _ => true
  | .null => false

/-- The `typeof x === 'string'` test. -/
def isJsonStr : JsonVal → Bool
  | .str _ => true
  | _ => false

/-- The `typeof x === 'boolean'` test. -/
def isJsonBool : JsonVal → Bool
  | .bool _ => true
  | _ => false

/-- The `Array.isArray(x) && x.every(t => typeof t === 'string')` test. -/
def isJsonStrArray : JsonVal → Bool
  | .arr elems => elems.all isJsonStr
  | _ => false

/-- The string payload of a JSON value (meaningful after an `isJsonStr`
check). -/
def jsonStr : JsonVal → String
  | .str s => s
  | _ => ""

/-- The string list payload of a JSON value (meaningful after an
`isJsonStrArray` check). -/
def jsonStrList : JsonVal → List String
  | .arr elems => elems.map jsonStr
  | _ => []

/-- The JSON bodies the modelled routes produce. -/
inductive RespBody where
  | errMsg (msg : String)
  | message (msg : String)
  | newsRec (r : NewsRow)
  | facultyRec (r : FacultyRow)
deriving DecidableEq, Repr

/-- An HTTP response: status code plus JSON body. -/
structure Resp where
  status : Nat
  body : RespBody
deriving DecidableEq, Repr

/-- Shorthand for the `{ error }` 400/404/409/500 responses. -/
def errResp (status : Nat) (msg : String) : Resp :=
  ⟨status, .errMsg msg⟩

/-- Required-string check of the create routes:
`!x || typeof x !== 'string' || x.trim() === ''`. -/
def reqStrBad : Option JsonVal → Bool
  | none => true
  | some v => !jsonTruthy v || !isJsonStr v || jsTrim (jsonStr v) == ""

/-- Present-field string check of the update routes:
`x !== undefined` and then `typeof x !== 'string' || x.trim() === ''`. -/
def presentStrBad : Option JsonVal → Bool
  | none => false
  | some v => !isJsonStr v || jsTrim (jsonStr v) == ""

/-- Optional-string check of the news create route:
`x !== undefined && typeof x !== 'string'` (`null` is rejected). -/
def optStrBadPost : Option JsonVal → Bool
  | none => false
  | some v => !isJsonStr v

/-- Optional-string check of the update routes and the faculty create route:
`x !== undefined && x !== null && typeof x !== 'string'`. -/
def optStrBadPut : Option JsonVal → Bool
  | none => false
  | some .null => false
  | some v => !isJsonStr v

/-- Optional-boolean check: `x !== undefined && typeof x !== 'boolean'`. -/
def optBoolBad : Option JsonVal → Bool
  | none => false
  | some v => !isJsonBool v

/-- Tags check of the news create route: defined but not an array of
strings. -/
def optStrArrBadPost : Option JsonVal → Bool
  | none => false
  | some v => !isJsonStrArray v

/-- Array check of the update routes and the faculty research-interests
checks: defined, not `null`, and not an array of strings. -/
def optStrArrBadPut : Option JsonVal → Bool
  | none => false
  | some .null => false
  | some v => !isJsonStrArray v

/-- Integer check of the faculty routes:
`x !== undefined && (typeof x !== 'number' || !Number.isInteger(x))`. -/
def optIntBad : Option JsonVal → Bool
  | none => false
  | some (.num _) => false
  | some _ => true

/-- Assembly `x?.trim()` of an optional string field (after validation the
value is a string, `null`, or absent; `null?.trim()` is `undefined`). -/
def optStrAssemble : Option JsonVal → Option String
  | some (.str s) => some (jsTrim s)
  | _ => none

/-- Assembly of a validated string-array field. -/
def optStrArrAssemble : Option JsonVal → Option (List String)
  | some (.arr es) => some (es.map jsonStr)
  | _ => none

/-- The JSON body keys `POST /api/news` reads. -/
structure NewsPostBody where
  title : Option JsonVal
  slug : Option JsonVal
  summary : Option JsonVal
  content : Option JsonVal
  thumbnailUrl : Option JsonVal
  author : Option JsonVal
  category : Option JsonVal
  isPublished : Option JsonVal
  tags : Option JsonVal

/-- The validation chain of `POST /api/news`, in source order, producing the
`newsData` object passed to `createNews` on success: required fields trimmed,
optional strings `?.trim()`ed, `isPublished ?? true`, `tags` passed as is. -/
def newsPostValidate (body : NewsPostBody) : Except Resp NewsCreateInput :=
  if reqStrBad body.title then
    .error (errResp 400 "Title is required and must be a non-empty string")
  else if reqStrBad body.slug then
    .error (errResp 400 "Slug is required and must be a non-empty string")
  else if reqStrBad body.content then
    .error (errResp 400 "Content is required and must be a non-empty string")
  else if !slugRegexTest (jsonStr (body.slug.getD .null)) then
    .error (errResp 400 "Slug must contain only lowercase letters, numbers, hyphens, and underscores")
  else if optStrBadPost body.summary then
    .error (errResp 400 "Summary must be a string")
  else if optStrBadPost body.thumbnailUrl then
    .error (errResp 400 "ThumbnailUrl must be a string")
  else if optStrBadPost body.author then
    .error (errResp 400 "Author must be a string")
  else if optStrBadPost body.category then
    .error (errResp 400 "Category must be a string")
  else if optBoolBad body.isPublished then
    .error (errResp 400 "IsPublished must be a boolean")
  else if optStrArrBadPost body.tags then
    .error (errResp 400 "Tags must be an array of strings")
  else
    .ok ⟨jsTrim (jsonStr (body.title.getD .null)),
      jsTrim (jsonStr (body.slug.getD .null)),
      optStrAssemble body.summary,
      jsTrim (jsonStr (body.content.getD .null)),
      optStrAssemble body.thumbnailUrl,
      optStrAssemble body.author,
      optStrAssemble body.category,
      (match body.isPublished with | some (.bool b) => b | _ => true),
      optStrArrAssemble body.tags⟩

/-- The catch block of the news create and update routes: an error whose
message contains "duplicate" or "unique" becomes
409 "A news article with this slug already exists", anything else 500. -/
def newsCatch (e : String) : Resp :=
  if strIncludes e "duplicate" || strIncludes e "unique" then
    errResp 409 "A news article with this slug already exists"
  else
    errResp 500 "Internal server error"

/-- Embedding of `POST /api/news`: JSON parse, validation chain, repository
call, with every throw routed to the catch block. -/
def newsPOST (bodyResult : Except String NewsPostBody)
    (repo : NewsCreateInput → Except String NewsRow) : Resp :=
  match bodyResult with
  | .error e => newsCatch e
  | .ok body =>
      match newsPostValidate body with
      | .error resp => resp
      | .ok input =>
          match repo input with
          | .ok created => ⟨201, .newsRec created⟩
          | .error e => newsCatch e

/-- The JSON body keys `PUT /api/news/[id]` reads. -/
structure NewsPutBody where
  title : Option JsonVal
  slug : Option JsonVal
  summary : Option JsonVal
  content : Option JsonVal
  thumbnailUrl : Option JsonVal
  author : Option JsonVal
  category : Option JsonVal
  isPublished : Option JsonVal
  tags : Option JsonVal
  id : Option JsonVal
  viewCount : Option JsonVal
  publishedAt : Option JsonVal
  updatedAt : Option JsonVal

/-- The validation chain of `PUT /api/news/[id]`, in source order, producing
the partial `updateData`; note that a field set to `null` is dropped by the
`?.trim()` assembly except `tags`, which passes `null` through to the
repository. -/
def newsPutValidate (body : NewsPutBody) : Except Resp NewsUpdate :=
  if presentStrBad body.title then
    .error (errResp 400 "Title must be a non-empty string")
  else if presentStrBad body.slug then
    .error (errResp 400 "Slug must be a non-empty string")
  else if (body.slug.isSome && !slugRegexTest (jsonStr (body.slug.getD .null))) then
    .error (errResp 400 "Slug must contain only lowercase letters, numbers, hyphens, and underscores")
  else if presentStrBad body.content then
    .error (errResp 400 "Content must be a non-empty string")
  else if optStrBadPut body.summary then
    .error (errResp 400 "Summary must be a string")
  else if optStrBadPut body.thumbnailUrl then
    .error (errResp 400 "ThumbnailUrl must be a string")
  else if optStrBadPut body.author then
    .error (errResp 400 "Author must be a string")
  else if optStrBadPut body.category then
    .error (errResp 400 "Category must be a string")
  else if optBoolBad body.isPublished then
    .error (errResp 400 "IsPublished must be a boolean")
  else if optStrArrBadPut body.tags then
    .error (errResp 400 "Tags must be an array of strings")
  else if (body.id.isSome || body.viewCount.isSome || body.publishedAt.isSome
      || body.updatedAt.isSome) then
    .error (errResp 400 "Cannot update system fields (id, viewCount, publishedAt, updatedAt)")
  else
    .ok ⟨body.title.map (fun v => jsTrim (jsonStr v)),
      body.slug.map (fun v => jsTrim (jsonStr v)),
      optStrAssemble body.summary,
      body.content.map (fun v => jsTrim (jsonStr v)),
      optStrAssemble body.thumbnailUrl,
      optStrAssemble body.author,
      optStrAssemble body.category,
      (match body.isPublished with | some (.bool b) => some b | _ => none),
      (match body.tags with
       | some (.arr es) => some (some (es.map jsonStr))
       | some .null => some none
       | _ => none)⟩

/-- Embedding of `GET /api/news/[id]`: id guard, then the repository lookup
(absent row gives 404, a throw gives 500). -/
def newsIdGET (idParam : String) (repo : Int → Except String (Option NewsRow)) :
    Resp :=
  if jsIdInvalid idParam then errResp 400 "Invalid news ID"
  else
    match repo ((parseJsInt idParam).getD 0) with
    | .ok none => errResp 404 "News article not found"
    | .ok (some news) => ⟨200, .newsRec news⟩
    | .error _ => errResp 500 "Internal server error"

/-- Embedding of `PUT /api/news/[id]`: id guard, JSON parse, validation
chain, repository update; throws (including those of the JSON parse) go to
the duplicate-aware catch block. -/
def newsIdPUT (idParam : String) (bodyResult : Except String NewsPutBody)
    (repo : Int → NewsUpdate → Except String (Option NewsRow)) : Resp :=
  if jsIdInvalid idParam then errResp 400 "Invalid news ID"
  else
    match bodyResult with
    | .error e => newsCatch e
    | .ok body =>
        match newsPutValidate body with
        | .error resp => resp
        | .ok u =>
            match repo ((parseJsInt idParam).getD 0) u with
            | .ok none => errResp 404 "News article not found"
            | .ok (some updated) => ⟨200, .newsRec updated⟩
            | .error e => newsCatch e

/-- Embedding of `DELETE /api/news/[id]`. -/
def newsIdDELETE (idParam : String) (repo : Int → Except String Bool) : Resp :=
  if jsIdInvalid idParam then errResp 400 "Invalid news ID"
  else
    match repo ((parseJsInt idParam).getD 0) with
    | .ok false => errResp 404 "News article not found"
    | .ok true => ⟨200, .message "News article deleted successfully"⟩
    | .error _ => errResp 500 "Internal server error"

/-- The JSON body keys `POST /api/faculty` reads. -/
structure FacultyPostBody where
  name : Option JsonVal
  nameEn : Option JsonVal
  title : Option JsonVal
  category : Option JsonVal
  photoUrl : Option JsonVal
  email : Option JsonVal
  phone : Option JsonVal
  office : Option JsonVal
  researchInterests : Option JsonVal
  education : Option JsonVal
  biography : Option JsonVal
  publications : Option JsonVal
  projects : Option JsonVal
  awards : Option JsonVal
  sortOrder : Option JsonVal
  isVisible : Option JsonVal

/-- The validation chain of `POST /api/faculty`, in source order, producing
the `facultyData` object passed to `createFaculty`: required fields trimmed,
optional strings `?.trim()`ed, `researchInterests` passed as is,
`sortOrder ?? 0`, `isVisible ?? true`. -/
def facultyPostValidate (body : FacultyPostBody) : Except Resp FacultyCreateInput :=
  if reqStrBad body.name then
    .error (errResp 400 "Name is required and must be a non-empty string")
  else if reqStrBad body.title then
    .error (errResp 400 "Title is required and must be a non-empty string")
  else if reqStrBad body.category then
    .error (errResp 400 "Category is required and must be a non-empty string")
  else if optStrBadPut body.nameEn then
    .error (errResp 400 "NameEn must be a string")
  else if optStrBadPut body.photoUrl then
    .error (errResp 400 "PhotoUrl must be a string")
  else if optStrBadPut body.email then
    .error (errResp 400 "Email must be a string")
  else if optStrBadPut body.phone then
    .error (errResp 400 "Phone must be a string")
  else if optStrBadPut body.office then
    .error (errResp 400 "Office must be a string")
  else if optStrArrBadPut body.researchInterests then
    .error (errResp 400 "ResearchInterests must be an array of strings")
  else if optStrBadPut body.education then
    .error (errResp 400 "Education must be a string")
  else if optStrBadPut body.biography then
    .error (errResp 400 "Biography must be a string")
  else if optStrBadPut body.publications then
    .error (errResp 400 "Publications must be a string")
  else if optStrBadPut body.projects then
    .error (errResp 400 "Projects must be a string")
  else if optStrBadPut body.awards then
    .error (errResp 400 "Awards must be a string")
  else if optIntBad body.sortOrder then
    .error (errResp 400 "SortOrder must be an integer")
  else if optBoolBad body.isVisible then
    .error (errResp 400 "IsVisible must be a boolean")
  else
    .ok ⟨jsTrim (jsonStr (body.name.getD .null)),
      optStrAssemble body.nameEn,
      jsTrim (jsonStr (body.title.getD .null)),
      jsTrim (jsonStr (body.category.getD .null)),
      optStrAssemble body.photoUrl,
      optStrAssemble body.email,
      optStrAssemble body.phone,
      optStrAssemble body.office,
      optStrArrAssemble body.researchInterests,
      optStrAssemble body.education,
      optStrAssemble body.biography,
      optStrAssemble body.publications,
      optStrAssemble body.projects,
      optStrAssemble body.awards,
      (match body.sortOrder with | some (.num n) => n | _ => 0),
      (match body.isVisible with | some (.bool b) => b | _ => true)⟩

/-- The catch block of every faculty route: it performs no inspection of the
error message and always produces 500 "Internal server error". -/
def facultyCatch (_e : String) : Resp :=
  errResp 500 "Internal server error"

/-- Embedding of `POST /api/faculty`: JSON parse, validation chain,
repository call; every throw goes to the 500-only catch block (no
duplicate-to-409 mapping exists in this route). -/
def facultyPOST (bodyResult : Except String FacultyPostBody)
    (repo : FacultyCreateInput → Except String FacultyRow) : Resp :=
  match bodyResult with
  | .error e => facultyCatch e
  | .ok body =>
      match facultyPostValidate body with
      | .error resp => resp
      | .ok input =>
          match repo input with
          | .ok created => ⟨201, .facultyRec created⟩
          | .error e => facultyCatch e

/-- The JSON body keys `PUT /api/faculty/[id]` reads. -/
structure FacultyPutBody where
  name : Option JsonVal
  nameEn : Option JsonVal
  title : Option JsonVal
  category : Option JsonVal
  photoUrl : Option JsonVal
  email : Option JsonVal
  phone : Option JsonVal
  office : Option JsonVal
  researchInterests : Option JsonVal
  education : Option JsonVal
  biography : Option JsonVal
  publications : Option JsonVal
  projects : Option JsonVal
  awards : Option JsonVal
  sortOrder : Option JsonVal
  isVisible : Option JsonVal
  id : Option JsonVal
  createdAt : Option JsonVal
  updatedAt : Option JsonVal

/-- The validation chain of `PUT /api/faculty/[id]`, in source order;
`researchInterests` set to `null` passes through to the repository, the
other nullable fields are dropped by the `?.trim()` assembly. -/
def facultyPutValidate (body : FacultyPutBody) : Except Resp FacultyUpdate :=
  if presentStrBad body.name then
    .error (errResp 400 "Name must be a non-empty string")
  else if presentStrBad body.title then
    .error (errResp 400 "Title must be a non-empty string")
  else if presentStrBad body.category then
    .error (errResp 400 "Category must be a non-empty string")
  else if optStrBadPut body.nameEn then
    .error (errResp 400 "NameEn must be a string")
  else if optStrBadPut body.photoUrl then
    .error (errResp 400 "PhotoUrl must be a string")
  else if optStrBadPut body.email then
    .error (errResp 400 "Email must be a string")
  else if optStrBadPut body.phone then
    .error (errResp 400 "Phone must be a string")
  else if optStrBadPut body.office then
    .error (errResp 400 "Office must be a string")
  else if optStrArrBadPut body.researchInterests then
    .error (errResp 400 "ResearchInterests must be an array of strings")
  else if optStrBadPut body.education then
    .error (errResp 400 "Education must be a string")
  else if optStrBadPut body.biography then
    .error (errResp 400 "Biography must be a string")
  else if optStrBadPut body.publications then
    .error (errResp 400 "Publications must be a string")
  else if optStrBadPut body.projects then
    .error (errResp 400 "Projects must be a string")
  else if optStrBadPut body.awards then
    .error (errResp 400 "Awards must be a string")
  else if optIntBad body.sortOrder then
    .error (errResp 400 "SortOrder must be an integer")
  else if optBoolBad body.isVisible then
    .error (errResp 400 "IsVisible must be a boolean")
  else if (body.id.isSome || body.createdAt.isSome || body.updatedAt.isSome) then
    .error (errResp 400 "Cannot update system fields (id, createdAt, updatedAt)")
  else
    .ok ⟨body.name.map (fun v => jsTrim (jsonStr v)),
      optStrAssemble body.nameEn,
      body.title.map (fun v => jsTrim (jsonStr v)),
      body.category.map (fun v => jsTrim (jsonStr v)),
      optStrAssemble body.photoUrl,
      optStrAssemble body.email,
      optStrAssemble body.phone,
      optStrAssemble body.office,
      (match body.researchInterests with
       | some (.arr es) => some (some (es.map jsonStr))
       | some .null => some none
       | _ => none),
      optStrAssemble body.education,
      optStrAssemble body.biography,
      optStrAssemble body.publications,
      optStrAssemble body.projects,
      optStrAssemble body.awards,
      (match body.sortOrder with | some (.num n) => some n | _ => none),
      (match body.isVisible with | some (.bool b) => some b | _ => none)⟩

/-- Embedding of `GET /api/faculty/[id]`. -/
def facultyIdGET (idParam : String)
    (repo : Int → Except String (Option FacultyRow)) : Resp :=
  if jsIdInvalid idParam then errResp 400 "Invalid faculty ID"
  else
    match repo ((parseJsInt idParam).getD 0) with
    | .ok none => errResp 404 "Faculty member not found"
    | .ok (some faculty) => ⟨200, .facultyRec faculty⟩
    | .error _ => errResp 500 "Internal server error"

/-- Embedding of `PUT /api/faculty/[id]`: id guard, JSON parse, validation
chain, repository update; every throw goes to the 500-only catch block. -/
def facultyIdPUT (idParam : String) (bodyResult : Except String FacultyPutBody)
    (repo : Int → FacultyUpdate → Except String (Option FacultyRow)) : Resp :=
  if jsIdInvalid idParam then errResp 400 "Invalid faculty ID"
  else
    match bodyResult with
    | .error e => facultyCatch e
    | .ok body =>
        match facultyPutValidate body with
        | .error resp => resp
        | .ok u =>
            match repo ((parseJsInt idParam).getD 0) u with
            | .ok none => errResp 404 "Faculty member not found"
            | .ok (some updated) => ⟨200, .facultyRec updated⟩
            | .error e => facultyCatch e

/-- Embedding of `DELETE /api/faculty/[id]`. -/
def facultyIdDELETE (idParam : String) (repo : Int → Except String Bool) : Resp :=
  if jsIdInvalid idParam then errResp 400 "Invalid faculty ID"
  else
    match repo ((parseJsInt idParam).getD 0) with
    | .ok false => errResp 404 "Faculty member not found"
    | .ok true => ⟨200, .message "Faculty member deleted successfully"⟩
    | .error _ => errResp 500 "Internal server error"

/-! # General lemmas -/

/-- Unfolding of `flattenTree` on a node. -/
theorem flattenTree_node (r : NavRow) (cs : List NavTree) :
    flattenTree (.node r cs) = r :: (cs.map flattenTree).flatten := by
  rw [flattenTree]
  congr 1
  rw [← List.attach_map_coe cs flattenTree]

/-- Membership is preserved by `insertSorted`. -/
theorem mem_insertSorted {α : Type} (le : α → α → Bool) (a x : α) (l : List α) :
    x ∈ insertSorted le a l ↔ x = a ∨ x ∈ l := by
  induction l with
  | nil => simp [insertSorted]
  | cons b t ih =>
      by_cases h : le b a = true
      · rw [insertSorted, if_pos h]
        simp only [List.mem_cons, ih]
        tauto
      · rw [insertSorted, if_neg h]
        simp only [List.mem_cons]

/-- Membership is preserved by `orderBy`. -/
theorem mem_orderBy {α : Type} (le : α → α → Bool) (x : α) (l : List α) :
    x ∈ orderBy le l ↔ x ∈ l := by
  induction l with
  | nil => simp [orderBy]
  | cons a t ih => simp [orderBy, mem_insertSorted, ih]

/-- The infix test holds exactly on decomposable lists. -/
theorem listHasInfix_iff (needle hay : List Char) :
    listHasInfix needle hay = true ↔ ∃ a b, hay = a ++ needle ++ b := by
  induction hay with
  | nil =>
      simp only [listHasInfix, List.isEmpty_iff]
      constructor
      · rintro rfl
        exact ⟨[], [], rfl⟩
      · rintro ⟨a, b, h⟩
        rcases List.append_eq_nil.mp (List.append_eq_nil.mp h.symm).1 with ⟨-, h2⟩
        exact h2
  | cons c t ih =>
      simp only [listHasInfix, Bool.or_eq_true, ih]
      constructor
      · rintro (h | ⟨a, b, rfl⟩)
        · rcases List.isPrefixOf_iff_prefix.mp h with ⟨b, hb⟩
          exact ⟨[], b, by simpa using hb.symm⟩
        · exact ⟨c :: a, b, rfl⟩
      · rintro ⟨a, b, h⟩
        cases a with
        | nil =>
            left
            simp only [List.nil_append] at h
            exact List.isPrefixOf_iff_prefix.mpr ⟨b, by simp [h]⟩
        | cons a0 rest =>
            right
            simp only [List.cons_append, List.cons.injEq] at h
            exact ⟨rest, b, h.2⟩

/-! # Claim theorems -/

/-- C9: for every statement and parameter list (abstracted as the driver
call's outcome), `queryOne` returns the first row of `query`'s result, the
absent marker when that result is empty, and propagates the wrapped
`DatabaseError` of `query` unchanged. -/
theorem queryOne_first_or_absent {α : Type} (driver : Except String (List α)) :
    (∀ rows : List α, query driver = .ok rows → queryOne driver = .ok rows.head?) ∧
    (∀ e : String, query driver = .error e → queryOne driver = .error e) := by
  refine ⟨fun rows h => ?_, fun e h => ?_⟩
  · simp [queryOne, h]
  · simp [queryOne, h]

/-- Witness for C9 at a concrete driver outcome: a two-row result yields its
first row, and a driver failure propagates the wrapped message. -/
theorem queryOne_first_or_absent_witness :
    @queryOne Nat (.ok [3, 7]) = .ok (some 3) ∧
    @queryOne Nat (.error "boom") = .error "Database operation failed: boom" :=
  ⟨(@queryOne_first_or_absent Nat (.ok [3, 7])).1 [3, 7] rfl,
    (@queryOne_first_or_absent Nat (.error "boom")).2
      "Database operation failed: boom" rfl⟩

/-- C6: an update with zero recognized fields present returns exactly what
`getNewsById` / `getFacultyById` returns, executes no UPDATE statement (the
database state, and with it every row's `updatedAt`, is unchanged), for news
and faculty alike. -/
theorem update_empty_is_getById (db : NewsDb) (id : Int)
    (fdb : FacultyDb) (fid : Int) :
    updateNews db id NewsUpdate.empty = .ok (db, getNewsById db id) ∧
    updateFaculty fdb fid FacultyUpdate.empty = (fdb, getFacultyById fdb fid) :=
  ⟨rfl, rfl⟩

/-- C4: for page ≥ 1 and pageSize in [1,100], `getNewsList` returns at most
`pageSize` items, picked from offset `(page-1)*pageSize` of the ordered
published rows matching the category filter, with `total` the count of all
matching rows regardless of the pagination window. -/
theorem getNewsList_window_and_total (db : NewsDb) (page pageSize : Int)
    (category : Option String) (hpage : 1 ≤ page) (hlo : 1 ≤ pageSize)
    (hhi : pageSize ≤ 100) :
    (getNewsList db page pageSize category).items.length ≤ pageSize.toNat ∧
    (getNewsList db page pageSize category).items =
      ((orderBy newsLe (db.rows.filter (newsMatches category))).drop
        (((page - 1) * pageSize).toNat)).take pageSize.toNat ∧
    (getNewsList db page pageSize category).total =
      ((db.rows.filter (newsMatches category)).length : Int) := by
  refine ⟨?_, rfl, rfl⟩
  simp only [getNewsList, List.length_take]
  exact Nat.min_le_left _ _

/-- A concrete news row used by witnesses. -/
def newsRowA : NewsRow :=
  ⟨1, "Spring term", "spring-term", none, "body a", none, none, some "campus",
    30, 30, true, 0, none⟩

/-- A second concrete news row. -/
def newsRowB : NewsRow :=
  ⟨2, "New lab", "new-lab", some "lab news", "body b", none, some "ed",
    some "research", 20, 25, true, 4, some ["lab"]⟩

/-- A third concrete news row, unpublished. -/
def newsRowC : NewsRow :=
  ⟨3, "Draft", "draft-item", none, "body c", none, none, some "campus",
    10, 10, false, 0, none⟩

/-- A concrete news table with two published rows and one draft. -/
def newsDbA : NewsDb :=
  ⟨[newsRowA, newsRowB, newsRowC], 4, 100⟩

/-- Witness for C4 at the concrete table: page 1 of size 1 returns a single
item while `total` counts both published rows. -/
theorem getNewsList_window_and_total_witness :
    (getNewsList newsDbA 1 1 none).items.length ≤ (1 : Int).toNat ∧
    (getNewsList newsDbA 1 1 none).items =
      ((orderBy newsLe (newsDbA.rows.filter (newsMatches none))).drop
        (((1 - 1) * 1 : Int).toNat)).take (1 : Int).toNat ∧
    (getNewsList newsDbA 1 1 none).total =
      ((newsDbA.rows.filter (newsMatches none)).length : Int) :=
  getNewsList_window_and_total newsDbA 1 1 none (by decide) (by decide) (by decide)

/-- C10: a repository create input whose optional string field is the empty
string produces exactly the create outcome of the input with that field
absent — the `x || null` parameter assembly inserts `NULL` either way.
Stated for the four such fields of `createNews` (summary, thumbnailUrl,
author, category) and the ten of `createFaculty` (nameEn, photoUrl, email,
phone, office, education, biography, publications, projects, awards). -/
theorem create_emptyString_as_null (db : NewsDb) (n : NewsCreateInput)
    (fdb : FacultyDb) (f : FacultyCreateInput) :
    createNews db { n with summary := some "" } =
      createNews db { n with summary := none } ∧
    createNews db { n with thumbnailUrl := some "" } =
      createNews db { n with thumbnailUrl := none } ∧
    createNews db { n with author := some "" } =
      createNews db { n with author := none } ∧
    createNews db { n with category := some "" } =
      createNews db { n with category := none } ∧
    createFaculty fdb { f with nameEn := some "" } =
      createFaculty fdb { f with nameEn := none } ∧
    createFaculty fdb { f with photoUrl := some "" } =
      createFaculty fdb { f with photoUrl := none } ∧
    createFaculty fdb { f with email := some "" } =
      createFaculty fdb { f with email := none } ∧
    createFaculty fdb { f with phone := some "" } =
      createFaculty fdb { f with phone := none } ∧
    createFaculty fdb { f with office := some "" } =
      createFaculty fdb { f with office := none } ∧
    createFaculty fdb { f with education := some "" } =
      createFaculty fdb { f with education := none } ∧
    createFaculty fdb { f with biography := some "" } =
      createFaculty fdb { f with biography := none } ∧
    createFaculty fdb { f with publications := some "" } =
      createFaculty fdb { f with publications := none } ∧
    createFaculty fdb { f with projects := some "" } =
      createFaculty fdb { f with projects := none } ∧
    createFaculty fdb { f with awards := some "" } =
      createFaculty fdb { f with awards := none } :=
  ⟨rfl, rfl, rfl, rfl, rfl, rfl, rfl, rfl, rfl, rfl, rfl, rfl, rfl, rfl⟩

/-- A slug character is not whitespace. -/
theorem isSlugChar_not_space (c : Char) (h : isSlugChar c = true) :
    isJsSpace c = false := by
  by_contra hc
  simp only [Bool.not_eq_false, isJsSpace, Bool.or_eq_true, beq_iff_eq] at hc
  rcases hc with ((rfl | rfl) | rfl) | rfl <;> exact absurd h (by decide)

/-- Dropping a failing predicate changes nothing. -/
theorem dropWhile_eq_self_of_none {α : Type} (p : α → Bool) (l : List α)
    (h : ∀ c ∈ l, p c = false) : l.dropWhile p = l := by
  cases l with
  | nil => rfl
  | cons a t =>
      rw [List.dropWhile_cons, h a (List.mem_cons_self a t)]
      simp

/-- Trimming a whitespace-free string is the identity. -/
theorem jsTrim_eq_self (s : String) (h : ∀ c ∈ s.data, isJsSpace c = false) :
    jsTrim s = s := by
  unfold jsTrim
  rw [dropWhile_eq_self_of_none _ _ h,
    dropWhile_eq_self_of_none _ _ (fun c hc => h c (List.mem_reverse.mp hc)),
    List.reverse_reverse]

/-- A string with a non-empty trim is non-empty. -/
theorem ne_empty_of_jsTrim_ne (s : String) (h : jsTrim s ≠ "") : s ≠ "" := by
  intro hs
  subst hs
  exact h rfl

/-- The regex test characterised: non-empty and all characters in the
class. -/
theorem slugRegexTest_iff (s : String) :
    slugRegexTest s = true ↔ (s ≠ "" ∧ ∀ c ∈ s.data, isSlugChar c = true) := by
  constructor
  · intro h
    simp only [slugRegexTest, Bool.and_eq_true, Bool.not_eq_true',
      List.all_eq_true] at h
    refine ⟨?_, h.2⟩
    intro hs
    rw [hs] at h
    exact absurd h.1 (by decide)
  · rintro ⟨hne, hall⟩
    simp only [slugRegexTest, Bool.and_eq_true, Bool.not_eq_true',
      List.all_eq_true]
    refine ⟨?_, hall⟩
    cases hh : s.data.isEmpty
    · rfl
    · exact absurd (String.ext_iff.mpr (by simpa using List.isEmpty_iff.mp hh)) hne

/-- The required-string check passes on a string whose trim is non-empty. -/
theorem reqStrBad_str_false (t : String) (h : jsTrim t ≠ "") :
    reqStrBad (some (.str t)) = false := by
  simp [reqStrBad, jsonTruthy, isJsonStr, jsonStr, h, ne_empty_of_jsTrim_ne t h]

/-- C7: the slug validator accepts exactly the non-empty strings over
`[a-z0-9-_]`; it rejects the four sample strings and accepts
"valid-slug_1"; a create body whose slug fails the regex (other required
fields fine) is answered 400 with a message containing "Slug", likewise the
update route, and a create body with a passing slug passes validation. -/
theorem slugValidator_spec :
    (∀ s : String, slugRegexTest s = true ↔
      (s ≠ "" ∧ ∀ c ∈ s.data, isSlugChar c = true)) ∧
    slugRegexTest "Invalid Slug" = false ∧
    slugRegexTest "UPPERCASE" = false ∧
    slugRegexTest "special@chars!" = false ∧
    slugRegexTest "" = false ∧
    slugRegexTest "valid-slug_1" = true ∧
    (∀ t s c : String, jsTrim t ≠ "" → jsTrim c ≠ "" → slugRegexTest s = true →
      ∃ input, newsPostValidate
        ⟨some (.str t), some (.str s), none, some (.str c),
          none, none, none, none, none⟩ = .ok input) ∧
    (∀ body : NewsPostBody, ∀ t s c : String,
      body.title = some (.str t) → jsTrim t ≠ "" →
      body.content = some (.str c) → jsTrim c ≠ "" →
      body.slug = some (.str s) → slugRegexTest s = false →
      ∃ m, newsPostValidate body = .error (errResp 400 m) ∧
        strIncludes m "Slug" = true) ∧
    (∀ body : NewsPutBody, ∀ s : String,
      body.title = none → body.slug = some (.str s) → slugRegexTest s = false →
      ∃ m, newsPutValidate body = .error (errResp 400 m) ∧
        strIncludes m "Slug" = true) := by
  refine ⟨slugRegexTest_iff, by decide, by decide, by decide, by decide,
    by decide, ?accept, ?reject, ?rejectPut⟩
  case accept =>
    intro t s c ht hc hs
    have hstrim : jsTrim s = s :=
      jsTrim_eq_self s
        (fun ch hch => isSlugChar_not_space ch (((slugRegexTest_iff s).mp hs).2 ch hch))
    have hsne : jsTrim s ≠ "" := by
      rw [hstrim]
      exact ((slugRegexTest_iff s).mp hs).1
    refine ⟨⟨jsTrim t, jsTrim s, none, jsTrim c, none, none, none, true, none⟩, ?_⟩
    simp [newsPostValidate, reqStrBad_str_false t ht, reqStrBad_str_false s hsne,
      reqStrBad_str_false c hc, jsonStr, hs, optStrBadPost, optBoolBad,
      optStrArrBadPost, optStrAssemble, optStrArrAssemble]
  case reject =>
    intro body t s c hbt ht hbc hc hbs hs
    by_cases hstrim : jsTrim s = ""
    · have hslug : reqStrBad (some (JsonVal.str s)) = true := by
        simp [reqStrBad, jsonStr, hstrim]
      refine ⟨"Slug is required and must be a non-empty string", ?_, by decide⟩
      simp [newsPostValidate, hbt, hbs, reqStrBad_str_false t ht, hslug]
    · refine ⟨"Slug must contain only lowercase letters, numbers, hyphens, and underscores",
        ?_, by decide⟩
      simp [newsPostValidate, hbt, hbs, hbc, reqStrBad_str_false t ht,
        reqStrBad_str_false s hstrim, reqStrBad_str_false c hc, jsonStr, hs]
  case rejectPut =>
    intro body s hbt hbs hs
    by_cases hstrim : jsTrim s = ""
    · refine ⟨"Slug must be a non-empty string", ?_, by decide⟩
      simp [newsPutValidate, hbt, hbs, presentStrBad, isJsonStr, jsonStr, hstrim]
    · refine ⟨"Slug must contain only lowercase letters, numbers, hyphens, and underscores",
        ?_, by decide⟩
      simp [newsPutValidate, hbt, hbs, presentStrBad, isJsonStr, jsonStr, hstrim, hs]

/-- Witness for C7: concrete acceptance of "valid-slug_1" and concrete
Slug-messaged rejections of "Invalid Slug" (create route) and "UPPERCASE"
(update route). -/
theorem slugValidator_spec_witness :
    (∃ input, newsPostValidate
      ⟨some (.str "T"), some (.str "valid-slug_1"), none, some (.str "C"),
        none, none, none, none, none⟩ = .ok input) ∧
    (∃ m, newsPostValidate
      ⟨some (.str "T"), some (.str "Invalid Slug"), none, some (.str "C"),
        none, none, none, none, none⟩ = .error (errResp 400 m) ∧
      strIncludes m "Slug" = true) ∧
    (∃ m, newsPutValidate
      ⟨none, some (.str "UPPERCASE"), none, none, none, none, none, none,
        none, none, none, none, none⟩ = .error (errResp 400 m) ∧
      strIncludes m "Slug" = true) :=
  ⟨slugValidator_spec.2.2.2.2.2.2.1 "T" "valid-slug_1" "C" (by decide)
      (by decide) (by decide),
    slugValidator_spec.2.2.2.2.2.2.2.1 _ "T" "Invalid Slug" "C" rfl (by decide)
      rfl (by decide) rfl (by decide),
    slugValidator_spec.2.2.2.2.2.2.2.2 _ "UPPERCASE" rfl rfl (by decide)⟩

/-- A concrete valid news create body. -/
def newsPostBodyA : NewsPostBody :=
  ⟨some (.str "Title"), some (.str "a-slug"), none, some (.str "Body"),
    none, none, none, none, none⟩

/-- A concrete valid news update body (title only). -/
def newsPutBodyA : NewsPutBody :=
  ⟨some (.str "New title"), none, none, none, none, none, none, none, none,
    none, none, none, none⟩

/-- A concrete valid faculty create body. -/
def facultyPostBodyA : FacultyPostBody :=
  ⟨some (.str "Li Ming"), none, some (.str "Professor"),
    some (.str "professor"), none, none, none, none, none, none, none, none,
    none, none, none, none⟩

/-- A driver error message of the store's uniqueness violation. -/
def dupMsg : String :=
  "duplicate key value violates unique constraint news_slug_key"

/-- C3 (amended): when the repository call throws a message containing
"duplicate" or "unique", `POST /api/news` and `PUT /api/news/[id]` respond
409 with a body containing "already exists"; `POST /api/faculty` has no such
mapping and responds 500 "Internal server error" for every repository
error. -/
theorem duplicateErrorMapping (e : String)
    (hdup : (strIncludes e "duplicate" || strIncludes e "unique") = true) :
    strIncludes "A news article with this slug already exists" "already exists" = true ∧
    (∀ body input, newsPostValidate body = .ok input →
      newsPOST (.ok body) (fun _ => .error e) =
        errResp 409 "A news article with this slug already exists") ∧
    (∀ idParam body u, jsIdInvalid idParam = false →
      newsPutValidate body = .ok u →
      newsIdPUT idParam (.ok body) (fun _ _ => .error e) =
        errResp 409 "A news article with this slug already exists") ∧
    (∀ body input, facultyPostValidate body = .ok input →
      facultyPOST (.ok body) (fun _ => .error e) =
        errResp 500 "Internal server error") := by
  refine ⟨by decide, ?_, ?_, ?_⟩
  · intro body input hv
    simp [newsPOST, hv, newsCatch, hdup]
  · intro idParam body u hid hv
    simp [newsIdPUT, hid, hv, newsCatch, hdup]
  · intro body input hv
    simp [facultyPOST, hv, facultyCatch]

/-- Witness for C3 at a concrete duplicate-key message and concrete valid
bodies: 409 on the two news routes, 500 on the faculty create route. -/
theorem duplicateErrorMapping_witness :
    newsPOST (.ok newsPostBodyA) (fun _ => .error dupMsg) =
      errResp 409 "A news article with this slug already exists" ∧
    newsIdPUT "5" (.ok newsPutBodyA) (fun _ _ => .error dupMsg) =
      errResp 409 "A news article with this slug already exists" ∧
    facultyPOST (.ok facultyPostBodyA) (fun _ => .error dupMsg) =
      errResp 500 "Internal server error" :=
  ⟨(duplicateErrorMapping dupMsg (by decide)).2.1 newsPostBodyA _ rfl,
    (duplicateErrorMapping dupMsg (by decide)).2.2.1 "5" newsPutBodyA _
      (by decide) rfl,
    (duplicateErrorMapping dupMsg (by decide)).2.2.2 facultyPostBodyA _ rfl⟩

/-- Counterexample for C3 as stated: a repository throw with a message
containing "duplicate" on `POST /api/faculty` (a valid create body) is
answered 500 "Internal server error", not 409 "already exists". -/
theorem facultyDuplicateNotMapped :
    (strIncludes dupMsg "duplicate" || strIncludes dupMsg "unique") = true ∧
    facultyPOST (.ok facultyPostBodyA) (fun _ => .error dupMsg) =
      errResp 500 "Internal server error" ∧
    (facultyPOST (.ok facultyPostBodyA) (fun _ => .error dupMsg)).status ≠ 409 := by
  refine ⟨by decide, by decide, by decide⟩

/-- C8 (amended): when `parseInt(idParam, 10)` on the id path parameter is
NaN or parses to a value below 1, all six id routes respond 400 with an
"Invalid … ID" message, for every request body and every repository — i.e.
before any repository operation can influence the outcome. -/
theorem invalidId_shortCircuit (idParam : String)
    (hbad : jsIdInvalid idParam = true) :
    (∀ repo, newsIdGET idParam repo = errResp 400 "Invalid news ID") ∧
    (∀ body repo, newsIdPUT idParam body repo = errResp 400 "Invalid news ID") ∧
    (∀ repo, newsIdDELETE idParam repo = errResp 400 "Invalid news ID") ∧
    (∀ repo, facultyIdGET idParam repo = errResp 400 "Invalid faculty ID") ∧
    (∀ body repo, facultyIdPUT idParam body repo = errResp 400 "Invalid faculty ID") ∧
    (∀ repo, facultyIdDELETE idParam repo = errResp 400 "Invalid faculty ID") ∧
    strIncludes "Invalid news ID" "Invalid" = true ∧
    strIncludes "Invalid news ID" "ID" = true ∧
    strIncludes "Invalid faculty ID" "Invalid" = true ∧
    strIncludes "Invalid faculty ID" "ID" = true := by
  refine ⟨fun repo => ?_, fun body repo => ?_, fun repo => ?_, fun repo => ?_,
    fun body repo => ?_, fun repo => ?_, by decide, by decide, by decide,
    by decide⟩ <;>
    simp [newsIdGET, newsIdPUT, newsIdDELETE, facultyIdGET, facultyIdPUT,
      facultyIdDELETE, hbad]

/-- Witness for C8 at the concrete non-numeric parameter "abc" (parseInt
NaN), one route per entity shown with a concrete repository. -/
theorem invalidId_shortCircuit_witness :
    newsIdGET "abc" (fun _ => .ok (some newsRowA)) = errResp 400 "Invalid news ID" ∧
    facultyIdDELETE "abc" (fun _ => .ok true) = errResp 400 "Invalid faculty ID" :=
  ⟨(invalidId_shortCircuit "abc" (by decide)).1 (fun _ => .ok (some newsRowA)),
    (invalidId_shortCircuit "abc" (by decide)).2.2.2.2.2.1 (fun _ => .ok true)⟩

/-- Counterexample for C8 as stated: "12abc" is not a decimal numeral of a
positive integer, yet `parseInt("12abc", 10)` is 12, so `GET /api/news/12abc`
is not answered 400 - the repository is invoked with id 12 and its outcome
(200 here, 404 with an empty store) reaches the client. -/
theorem invalidId_parseIntPrefix :
    ("12abc").data.all isDigitChar = false ∧
    parseJsInt "12abc" = some 12 ∧
    newsIdGET "12abc" (fun _ => .ok (some newsRowA)) = ⟨200, .newsRec newsRowA⟩ ∧
    newsIdGET "12abc" (fun _ => .ok none) = errResp 404 "News article not found" := by
  refine ⟨by decide, by decide, by decide, by decide⟩

/-- The `x || null` assembly is the identity away from the empty string. -/
theorem jsOrNull_eq_self (o : Option String) (h : o ≠ some "") :
    jsOrNull o = o := by
  match o with
  | none => rfl
  | some s =>
      have hs : s ≠ "" := fun hs => h (by rw [hs])
      simp [jsOrNull, hs]

/-- The row `createNews` inserts and returns. -/
def newsInsertedRow (db : NewsDb) (input : NewsCreateInput) : NewsRow :=
  ⟨db.nextId, input.title, input.slug, jsOrNull input.summary, input.content,
    jsOrNull input.thumbnailUrl, jsOrNull input.author, jsOrNull input.category,
    db.now, db.now, input.isPublished, 0, input.tags⟩

set_option maxHeartbeats 1000000 in
/-- C5 (amended): creating a news article in a well-formed store (ids below
the id counter) with a fresh slug and then fetching the returned id yields
the inserted record: required fields and `isPublished`/`tags` equal the
repository input, each optional string field is the input passed through
`x || null` (hence equal to the input whenever the input is not the empty
string, and `NULL` otherwise), `viewCount` is 0; and the route assembly
defaults `isPublished` to `true` when the body omits it. -/
theorem createNews_then_getById (db : NewsDb) (input : NewsCreateInput)
    (hwf : ∀ r ∈ db.rows, r.id < db.nextId)
    (hfresh : db.rows.any (fun r => r.slug == input.slug) = false) :
    (∃ db' row, createNews db input = .ok (db', row) ∧
      getNewsById db' row.id = some row ∧
      row.title = input.title ∧ row.slug = input.slug ∧
      row.content = input.content ∧ row.isPublished = input.isPublished ∧
      row.tags = input.tags ∧ row.viewCount = 0 ∧
      row.summary = jsOrNull input.summary ∧
      row.thumbnailUrl = jsOrNull input.thumbnailUrl ∧
      row.author = jsOrNull input.author ∧
      row.category = jsOrNull input.category ∧
      (input.summary ≠ some "" → row.summary = input.summary) ∧
      (input.thumbnailUrl ≠ some "" → row.thumbnailUrl = input.thumbnailUrl) ∧
      (input.author ≠ some "" → row.author = input.author) ∧
      (input.category ≠ some "" → row.category = input.category)) ∧
    (∀ body input', newsPostValidate body = .ok input' →
      body.isPublished = none → input'.isPublished = true) := by
  constructor
  · refine ⟨⟨db.rows ++ [newsInsertedRow db input], db.nextId + 1, db.now⟩,
      newsInsertedRow db input, ?_, ?_, rfl, rfl, rfl, rfl, rfl, rfl, rfl,
      rfl, rfl, rfl,
      fun h => jsOrNull_eq_self _ h, fun h => jsOrNull_eq_self _ h,
      fun h => jsOrNull_eq_self _ h, fun h => jsOrNull_eq_self _ h⟩
    · simp [createNews, hfresh, newsInsertedRow]
    · simp only [getNewsById, List.find?_append]
      have hnone : db.rows.find? (fun r => r.id == (newsInsertedRow db input).id) = none := by
        rw [List.find?_eq_none]
        intro r hr
        simp only [beq_iff_eq, newsInsertedRow]
        exact ne_of_lt (hwf r hr)
      rw [hnone]
      simp [List.find?]
  · intro body input' hv hnone
    simp only [newsPostValidate] at hv
    split_ifs at hv
    simp only [Except.ok.injEq] at hv
    rw [← hv]
    simp [hnone]

/-- A concrete fresh create input with every optional field either absent or
non-empty. -/
def newsInputA : NewsCreateInput :=
  ⟨"T", "fresh-slug", some "Sum", "C", none, none, some "campus", true,
    some ["x"]⟩

/-- Witness for C5 at a concrete store and input. -/
theorem createNews_then_getById_witness :
    (∃ db' row, createNews newsDbA newsInputA = .ok (db', row) ∧
      getNewsById db' row.id = some row ∧
      row.title = newsInputA.title ∧ row.slug = newsInputA.slug ∧
      row.content = newsInputA.content ∧
      row.isPublished = newsInputA.isPublished ∧
      row.tags = newsInputA.tags ∧ row.viewCount = 0 ∧
      row.summary = jsOrNull newsInputA.summary ∧
      row.thumbnailUrl = jsOrNull newsInputA.thumbnailUrl ∧
      row.author = jsOrNull newsInputA.author ∧
      row.category = jsOrNull newsInputA.category ∧
      (newsInputA.summary ≠ some "" → row.summary = newsInputA.summary) ∧
      (newsInputA.thumbnailUrl ≠ some "" →
        row.thumbnailUrl = newsInputA.thumbnailUrl) ∧
      (newsInputA.author ≠ some "" → row.author = newsInputA.author) ∧
      (newsInputA.category ≠ some "" → row.category = newsInputA.category)) ∧
    (∀ body input', newsPostValidate body = .ok input' →
      body.isPublished = none → input'.isPublished = true) :=
  createNews_then_getById newsDbA newsInputA (by decide) (by decide)

/-- A create input supplying the empty string for `summary`. -/
def newsInputEmptySummary : NewsCreateInput :=
  ⟨"T", "another-slug", some "", "C", none, none, none, true, none⟩

/-- Counterexample for C5 as stated: the caller supplies `summary = ""`, the
created (and re-fetched) record carries `NULL` instead, so the record is not
equal to the input on every supplied field. -/
theorem createNews_emptySummary_not_roundtrip :
    newsInputEmptySummary.summary = some "" ∧
    (createNews newsDbA newsInputEmptySummary).map (fun p => p.2.summary) =
      .ok none ∧
    (createNews newsDbA newsInputEmptySummary).map
      (fun p => (getNewsById p.1 p.2.id).map (fun r => r.summary)) =
      .ok (some none) ∧
    (some "" : Option String) ≠ none :=
  ⟨rfl, rfl, rfl, by decide⟩

/-- A non-`%` pattern head never matches the empty string. -/
theorem likeMatches_cons_nil (p : Char) (ps : List Char) (h : p ≠ '%') :
    likeMatches (p :: ps) [] = false := by
  rw [likeMatches]
  simp [h]

/-- Unfolding for a plain pattern character. -/
theorem likeMatches_plain_cons (p c : Char) (ps cs : List Char) (h : p ≠ '%')
    (h2 : p ≠ '_') :
    likeMatches (p :: ps) (c :: cs) =
      ((p.toLower == c.toLower) && likeMatches ps cs) := by
  rw [likeMatches]
  simp [h, h2]

/-- Unfolding for a `%` pattern head against a non-empty string. -/
theorem likeMatches_star_cons (ps : List Char) (c : Char) (cs : List Char) :
    likeMatches ('%' :: ps) (c :: cs) =
      (likeMatches ps (c :: cs) || likeMatches ('%' :: ps) cs) := by
  rw [likeMatches]
  simp

/-- Unfolding for a `%` pattern head against the empty string. -/
theorem likeMatches_star_nil (ps : List Char) :
    likeMatches ('%' :: ps) [] = likeMatches ps [] := by
  rw [likeMatches]

/-- A wildcard-free pattern followed by `%` matches exactly the strings that
start with it (case-insensitively). -/
theorem likeMatches_tail_star (q : List Char) :
    ∀ s : List Char, (∀ c ∈ q, ¬c = '%' ∧ ¬c = '_') →
    likeMatches (q ++ ['%']) s = true →
    ∃ pre suf, s = pre ++ suf ∧
      pre.map Char.toLower = q.map Char.toLower := by
  induction q with
  | nil =>
      intro s _ _
      exact ⟨[], s, rfl, rfl⟩
  | cons p q' ih =>
      intro s hfree hm
      obtain ⟨hp1, hp2⟩ := hfree p (List.mem_cons_self p q')
      cases s with
      | nil =>
          rw [List.cons_append, likeMatches_cons_nil p _ hp1] at hm
          exact absurd hm (by simp)
      | cons c cs =>
          rw [List.cons_append, likeMatches_plain_cons p c _ cs hp1 hp2,
            Bool.and_eq_true, beq_iff_eq] at hm
          obtain ⟨heq, hm'⟩ := hm
          obtain ⟨pre, suf, hsplit, hmap⟩ :=
            ih cs (fun x hx => hfree x (List.mem_cons_of_mem p hx)) hm'
          exact ⟨c :: pre, suf, by rw [List.cons_append, hsplit], by simp [hmap, heq]⟩

/-- A match against a `%`-headed pattern splits off an arbitrary prefix. -/
theorem likeMatches_star_split (ps : List Char) :
    ∀ s : List Char, likeMatches ('%' :: ps) s = true →
    ∃ a b, s = a ++ b ∧ likeMatches ps b = true := by
  intro s
  induction s with
  | nil =>
      intro hm
      rw [likeMatches_star_nil] at hm
      exact ⟨[], [], rfl, hm⟩
  | cons c cs ih =>
      intro hm
      rw [likeMatches_star_cons] at hm
      have hm2 : likeMatches ps (c :: cs) = true ∨
          likeMatches ('%' :: ps) cs = true := by
        simpa using hm
      cases hm2 with
      | inl h => exact ⟨[], c :: cs, rfl, h⟩
      | inr h =>
          obtain ⟨a, b, hab, hb⟩ := ih h
          exact ⟨c :: a, b, by rw [hab, List.cons_append], hb⟩

/-- The character data of the `'%' + q + '%'` pattern. -/
theorem likePattern_data (q : String) :
    (likePattern q).data = '%' :: (q.data ++ ['%']) := by
  simp [likePattern, String.data_append]

/-- Soundness of `ILIKE '%q%'` for a wildcard-free query: a matching string
case-insensitively contains the query. -/
theorem ilike_contains_sound (q s : String)
    (hfree : ∀ c ∈ q.data, ¬c = '%' ∧ ¬c = '_')
    (hm : ilike s (likePattern q) = true) : ciContains s q = true := by
  rw [ilike, likePattern_data] at hm
  obtain ⟨a, b, hsd, hb⟩ := likeMatches_star_split (q.data ++ ['%']) s.data hm
  obtain ⟨pre, suf, hsplit, hmap⟩ := likeMatches_tail_star q.data b hfree hb
  refine (listHasInfix_iff _ _).mpr
    ⟨a.map Char.toLower, suf.map Char.toLower, ?_⟩
  rw [hsd, hsplit]
  simp [hmap]

/-- A research interest equal to the `'%q%'` pattern contains the query. -/
theorem pattern_ciContains (q : String) :
    ciContains (likePattern q) q = true := by
  refine (listHasInfix_iff _ _).mpr
    ⟨['%'.toLower], ['%'.toLower], ?_⟩
  rw [likePattern_data]
  simp

/-- The empty query is contained in every string. -/
theorem ciContains_empty (s : String) : ciContains s "" = true := by
  show listHasInfix [] _ = true
  cases h : s.data.map Char.toLower with
  | nil => rfl
  | cons c t => simp [listHasInfix, List.isPrefixOf]

/-- Unpacking membership in a `getFacultyList` result: the row is visible
and passes whichever of the two optional filters are active. -/
theorem mem_getFacultyList {db : FacultyDb} {cat sq : Option String}
    {r : FacultyRow} (hr : r ∈ getFacultyList db cat sq) :
    r.isVisible = true ∧
    (jsTruthyStr cat = true → (r.category == cat.getD "") = true) ∧
    (jsTruthyStr sq = true → facultySearchCond (sq.getD "") r = true) := by
  simp only [getFacultyList, mem_orderBy] at hr
  cases h1 : jsTruthyStr cat <;> cases h2 : jsTruthyStr sq <;>
    simp only [h1, h2, Bool.false_eq_true, if_true, if_false] at hr
  · obtain ⟨-, hvis⟩ := List.mem_filter.mp hr
    exact ⟨hvis, fun hh => absurd hh Bool.false_ne_true,
      fun hh => absurd hh Bool.false_ne_true⟩
  · obtain ⟨hr1, hcond⟩ := List.mem_filter.mp hr
    obtain ⟨-, hvis⟩ := List.mem_filter.mp hr1
    exact ⟨hvis, fun hh => absurd hh Bool.false_ne_true, fun _ => hcond⟩
  · obtain ⟨hr1, hcat⟩ := List.mem_filter.mp hr
    obtain ⟨-, hvis⟩ := List.mem_filter.mp hr1
    exact ⟨hvis, fun _ => hcat, fun hh => absurd hh Bool.false_ne_true⟩
  · obtain ⟨hr1, hcond⟩ := List.mem_filter.mp hr
    obtain ⟨hr2, hcat⟩ := List.mem_filter.mp hr1
    obtain ⟨-, hvis⟩ := List.mem_filter.mp hr2
    exact ⟨hvis, fun _ => hcat, fun _ => hcond⟩

/-- C2 (amended): `getFacultyList` with a non-empty category filter returns
only records of that category; `searchFaculty` with a query free of the SQL
LIKE wildcards `%` and `_` returns only records whose name, nameEn or title
case-insensitively contains the query, or one of whose research interests
does (in the code, by equalling the literal `'%q%'` pattern). -/
theorem facultyList_filter_sound (db : FacultyDb) :
    (∀ cat : String, cat ≠ "" →
      ∀ r ∈ getFacultyList db (some cat) none, r.category = cat) ∧
    (∀ q : String, (∀ c ∈ q.data, ¬c = '%' ∧ ¬c = '_') →
      ∀ r ∈ searchFaculty db q,
        ciContains r.name q = true ∨
        (∃ s, r.nameEn = some s ∧ ciContains s q = true) ∨
        ciContains r.title q = true ∨
        (∃ l s, r.researchInterests = some l ∧ s ∈ l ∧
          ciContains s q = true)) := by
  constructor
  · intro cat hcat r hr
    have h := (mem_getFacultyList hr).2.1 (by simp [jsTruthyStr, hcat])
    simpa using h
  · intro q hfree r hr
    by_cases hq : q = ""
    · subst hq
      exact Or.inl (ciContains_empty r.name)
    · have hcond := (mem_getFacultyList hr).2.2 (by simp [jsTruthyStr, hq])
      simp only [Option.getD_some, facultySearchCond, Bool.or_eq_true] at hcond
      rcases hcond with ((hn | hne) | ht) | hri
      · exact Or.inl (ilike_contains_sound q r.name hfree hn)
      · cases hen : r.nameEn with
        | none => rw [hen] at hne; exact absurd hne (by simp)
        | some s =>
            rw [hen] at hne
            exact Or.inr (Or.inl ⟨s, rfl, ilike_contains_sound q s hfree hne⟩)
      · exact Or.inr (Or.inr (Or.inl (ilike_contains_sound q r.title hfree ht)))
      · cases hri2 : r.researchInterests with
        | none => rw [hri2] at hri; exact absurd hri (by simp)
        | some l =>
            rw [hri2] at hri
            refine Or.inr (Or.inr (Or.inr ⟨l, likePattern q, rfl, ?_,
              pattern_ciContains q⟩))
            simpa using hri

/-- A concrete visible faculty row. -/
def facultyRowA : FacultyRow :=
  ⟨1, "Zhang San", some "Zhang San", "Professor", "professor", none, none,
    none, none, some ["machine learning"], none, none, none, none, none, 0,
    true, 50, 50⟩

/-- A concrete faculty table. -/
def facultyDbA : FacultyDb :=
  ⟨[facultyRowA], 2, 100⟩

/-- Witness for C2 at the concrete table: the professor row is returned by
the category filter and by a case-insensitive name search, with the claimed
properties. -/
theorem facultyList_filter_sound_witness :
    (facultyRowA ∈ getFacultyList facultyDbA (some "professor") none ∧
      facultyRowA.category = "professor") ∧
    (facultyRowA ∈ searchFaculty facultyDbA "zhang" ∧
      (ciContains facultyRowA.name "zhang" = true ∨
        (∃ s, facultyRowA.nameEn = some s ∧ ciContains s "zhang" = true) ∨
        ciContains facultyRowA.title "zhang" = true ∨
        (∃ l s, facultyRowA.researchInterests = some l ∧ s ∈ l ∧
          ciContains s "zhang" = true))) := by
  have hmem1 : facultyRowA ∈ getFacultyList facultyDbA (some "professor") none := by
    simp [getFacultyList, facultyDbA, facultyRowA, jsTruthyStr, orderBy,
      insertSorted]
  have hmem2 : facultyRowA ∈ searchFaculty facultyDbA "zhang" := by
    simp [searchFaculty, getFacultyList, facultyDbA, facultyRowA, jsTruthyStr,
      orderBy, insertSorted, facultySearchCond, ilike, likePattern,
      likeMatches]
  exact ⟨⟨hmem1, (facultyList_filter_sound facultyDbA).1 "professor"
      (by decide) facultyRowA hmem1⟩,
    ⟨hmem2, (facultyList_filter_sound facultyDbA).2 "zhang" (by decide)
      facultyRowA hmem2⟩⟩

/-- A visible faculty row with category "physics" and name "axb". -/
def facultyRowX : FacultyRow :=
  ⟨1, "axb", none, "t", "physics", none, none, none, none, none, none, none,
    none, none, none, 0, true, 50, 50⟩

/-- A single-row faculty table for the counterexample. -/
def facultyDbX : FacultyDb :=
  ⟨[facultyRowX], 2, 100⟩

/-- Counterexample for C2 as stated: with the empty-string category filter
the falsy guard drops the filter and a "physics" record is returned; and the
wildcard query "a%b" matches the name "axb" through ILIKE although no field
contains "a%b". -/
theorem facultyList_filter_counterexample :
    (getFacultyList facultyDbX (some "") none).map (fun r => r.category) =
      ["physics"] ∧
    ("physics" : String) ≠ "" ∧
    (searchFaculty facultyDbX "a%b").map (fun r => r.name) = ["axb"] ∧
    ciContains "axb" "a%b" = false ∧
    facultyRowX.nameEn = none ∧
    ciContains "t" "a%b" = false ∧
    facultyRowX.researchInterests = none := by
  refine ⟨by simp [getFacultyList, facultyDbX, facultyRowX, jsTruthyStr,
      orderBy, insertSorted], by decide, ?_, by decide, by decide, by decide,
    by decide⟩
  simp [searchFaculty, getFacultyList, facultyDbX, facultyRowX, jsTruthyStr,
    orderBy, insertSorted, facultySearchCond, ilike, likePattern, likeMatches]

/-! # Navigation lemmas (claim C1) -/

/-- A depth certificate never exceeds its fuel. -/
theorem rowDepth_le (rows : List NavRow) :
    ∀ f : Nat, ∀ r : NavRow, ∀ d : Nat,
      rowDepth rows f r = some d → d ≤ f := by
  intro f
  induction f with
  | zero =>
      intro r d h
      rw [rowDepth] at h
      by_cases ht : truthyId r.parentId = true
      · simp [ht] at h
      · simp only [ht] at h
        simp at h
        omega
  | succ f ih =>
      intro r d h
      rw [rowDepth] at h
      by_cases ht : truthyId r.parentId = true
      · simp only [ht, if_true] at h
        cases hf : rows.find? (fun p => p.id == r.parentId.getD 0) with
        | none => simp [hf] at h
        | some p =>
            simp only [hf] at h
            cases he : rowDepth rows f p with
            | none => simp [he] at h
            | some e =>
                simp [he] at h
                have := ih p e he
                omega
      · simp only [ht] at h
        simp at h
        omega

/-- A depth certificate survives one unit of extra fuel. -/
theorem rowDepth_mono (rows : List NavRow) :
    ∀ f : Nat, ∀ r : NavRow, ∀ d : Nat,
      rowDepth rows f r = some d → rowDepth rows (f + 1) r = some d := by
  intro f
  induction f with
  | zero =>
      intro r d h
      rw [rowDepth] at h
      by_cases ht : truthyId r.parentId = true
      · simp [ht] at h
      · simp only [ht] at h
        rw [rowDepth]
        simp only [ht]
        simpa using h
  | succ f ih =>
      intro r d h
      rw [rowDepth] at h
      by_cases ht : truthyId r.parentId = true
      · simp only [ht, if_true] at h
        cases hf : rows.find? (fun p => p.id == r.parentId.getD 0) with
        | none => simp [hf] at h
        | some p =>
            simp only [hf] at h
            cases he : rowDepth rows f p with
            | none => simp [he] at h
            | some e =>
                simp only [he] at h
                rw [rowDepth]
                simp only [ht, if_true, hf, ih p e he]
                exact h
      · simp only [ht] at h
        rw [rowDepth]
        simp only [ht]
        simpa using h

/-- A depth certificate survives any extra fuel. -/
theorem rowDepth_mono_le (rows : List NavRow) (f g : Nat) (hfg : f ≤ g)
    (r : NavRow) (d : Nat) (h : rowDepth rows f r = some d) :
    rowDepth rows g r = some d := by
  induction g with
  | zero =>
      have : f = 0 := Nat.le_zero.mp hfg
      exact this ▸ h
  | succ g ih =>
      rcases Nat.lt_or_ge f (g + 1) with hlt | hge
      · exact rowDepth_mono rows g r d (ih (Nat.lt_succ_iff.mp hlt))
      · have : f = g + 1 := Nat.le_antisymm hfg hge
        exact this ▸ h

/-- The depth of a row is fuel-independent. -/
theorem rowDepth_det (rows : List NavRow) (f g : Nat) (r : NavRow) (d e : Nat)
    (hd : rowDepth rows f r = some d) (he : rowDepth rows g r = some e) :
    d = e := by
  rcases Nat.le_total f g with hfg | hgf
  · have h2 := rowDepth_mono_le rows f g hfg r d hd
    rw [h2] at he
    exact Option.some.inj he
  · have h2 := rowDepth_mono_le rows g f hgf r e he
    rw [h2] at hd
    exact (Option.some.inj hd).symm

/-- Depth zero characterises a falsy parent. -/
theorem rowDepth_zero_not_truthy (rows : List NavRow) (f : Nat) (r : NavRow)
    (h : rowDepth rows f r = some 0) : truthyId r.parentId = false := by
  cases f with
  | zero =>
      rw [rowDepth] at h
      by_cases ht : truthyId r.parentId = true
      · simp [ht] at h
      · simpa using ht
  | succ f =>
      rw [rowDepth] at h
      by_cases ht : truthyId r.parentId = true
      · simp only [ht, if_true] at h
        cases hf : rows.find? (fun p => p.id == r.parentId.getD 0) with
        | none => simp [hf] at h
        | some p =>
            simp only [hf] at h
            cases he : rowDepth rows f p with
            | none => simp [he] at h
            | some e => simp [he] at h
      · simpa using ht

/-- A falsy parent has depth zero at any fuel. -/
theorem rowDepth_zero_of_not_truthy (rows : List NavRow) (f : Nat) (r : NavRow)
    (h : truthyId r.parentId = false) : rowDepth rows f r = some 0 := by
  cases f with
  | zero => rw [rowDepth]; simp [h]
  | succ f => rw [rowDepth]; simp [h]

/-- Elimination of a successor-depth certificate: the parent lookup succeeds
and certifies one step less. -/
theorem rowDepth_succ_elim (rows : List NavRow) (f : Nat) (r : NavRow) (d : Nat)
    (h : rowDepth rows (f + 1) r = some (d + 1)) :
    truthyId r.parentId = true ∧
    ∃ p, rows.find? (fun x => x.id == r.parentId.getD 0) = some p ∧
      rowDepth rows f p = some d := by
  rw [rowDepth] at h
  by_cases ht : truthyId r.parentId = true
  · simp only [ht, if_true] at h
    cases hf : rows.find? (fun p => p.id == r.parentId.getD 0) with
    | none => simp [hf] at h
    | some p =>
        simp only [hf] at h
        cases he : rowDepth rows f p with
        | none => simp [he] at h
        | some e =>
            simp [he] at h
            refine ⟨ht, p, rfl, ?_⟩
            rw [he]
            exact congrArg some (by omega)
  · simp only [ht] at h
    simp at h

/-- Introduction of a successor-depth certificate from a parent lookup. -/
theorem rowDepth_succ_intro (rows : List NavRow) (f : Nat) (r p : NavRow)
    (d : Nat) (ht : truthyId r.parentId = true)
    (hf : rows.find? (fun x => x.id == r.parentId.getD 0) = some p)
    (hp : rowDepth rows f p = some d) :
    rowDepth rows (f + 1) r = some (d + 1) := by
  rw [rowDepth]
  simp [ht, hf, hp]

/-- With distinct ids, looking a member row up by its own id finds it. -/
theorem find?_id_nodup (rows : List NavRow)
    (hnd : (rows.map (fun r => r.id)).Nodup) (p : NavRow) (hp : p ∈ rows) :
    rows.find? (fun x => x.id == p.id) = some p := by
  induction rows with
  | nil => cases hp
  | cons a t ih =>
      rw [List.map_cons, List.nodup_cons] at hnd
      rw [List.find?]
      by_cases hap : a = p
      · subst hap
        simp
      · have hpt : p ∈ t := by
          cases List.mem_cons.mp hp with
          | inl h => exact absurd h.symm hap
          | inr h => exact h
        have hne : (a.id == p.id) = false := by
          rw [beq_eq_false_iff_ne]
          intro he
          exact hnd.1 (he ▸ List.mem_map_of_mem (fun r => r.id) hpt)
        rw [hne]
        exact ih hnd.2 hpt

/-- With distinct ids, equal ids force equal rows. -/
theorem id_inj (rows : List NavRow) (hnd : (rows.map (fun r => r.id)).Nodup)
    (a b : NavRow) (ha : a ∈ rows) (hb : b ∈ rows) (h : a.id = b.id) :
    a = b :=
  List.inj_on_of_nodup_map hnd ha hb h

/-- Membership in a child list, unpacked. -/
theorem mem_childRows_elim {rows : List NavRow} {p : Int} {c : NavRow}
    (h : c ∈ childRows rows p) :
    c ∈ rows ∧ truthyId c.parentId = true ∧ c.parentId.getD 0 = p := by
  obtain ⟨hm, hcond⟩ := List.mem_filter.mp h
  simp only [Bool.and_eq_true, beq_iff_eq] at hcond
  exact ⟨hm, hcond.1, hcond.2⟩

/-- Membership in a child list, introduced. -/
theorem mem_childRows_intro {rows : List NavRow} {p : Int} {c : NavRow}
    (hm : c ∈ rows) (ht : truthyId c.parentId = true)
    (hp : c.parentId.getD 0 = p) : c ∈ childRows rows p := by
  refine List.mem_filter.mpr ⟨hm, ?_⟩
  simp [ht, hp]

/-- A child of a row with a depth certificate has the successor depth. -/
theorem childRows_depth (rows : List NavRow)
    (hnd : (rows.map (fun r => r.id)).Nodup) (s : NavRow) (hs : s ∈ rows)
    (g ds : Nat) (hdep : rowDepth rows g s = some ds) (c : NavRow)
    (hc : c ∈ childRows rows s.id) :
    rowDepth rows (g + 1) c = some (ds + 1) := by
  obtain ⟨hcm, hct, hcp⟩ := mem_childRows_elim hc
  have hfind : rows.find? (fun x => x.id == c.parentId.getD 0) = some s := by
    rw [hcp]
    exact find?_id_nodup rows hnd s hs
  exact rowDepth_succ_intro rows g c s ds hct hfind hdep

/-- The ancestors of a row with a depth certificate exist up to its depth,
belong to the row set, and have the complementary depth. -/
theorem anc_chain (rows : List NavRow) (tgt : NavRow) (htgt : tgt ∈ rows)
    (dt g0 : Nat) (hdt : rowDepth rows g0 tgt = some dt) :
    ∀ k : Nat, k ≤ dt → ∃ a, ancRow rows k tgt = some a ∧ a ∈ rows ∧
      ∃ g, rowDepth rows g a = some (dt - k) := by
  intro k
  induction k with
  | zero =>
      intro _
      exact ⟨tgt, rfl, htgt, g0, by simpa using hdt⟩
  | succ k ih =>
      intro hk1
      obtain ⟨a, hanc, hmem, g, hg⟩ := ih (Nat.le_of_succ_le hk1)
      have hsub : dt - k = (dt - (k + 1)) + 1 := by omega
      rw [hsub] at hg
      cases g with
      | zero =>
          rw [rowDepth] at hg
          by_cases ht : truthyId a.parentId = true
          · simp [ht] at hg
          · simp [ht] at hg
      | succ g' =>
          obtain ⟨ht, p, hfind, hp⟩ := rowDepth_succ_elim rows g' a _ hg
          refine ⟨p, ?_, List.mem_of_find?_eq_some hfind, g', hp⟩
          rw [ancRow, hanc]
          simp [parentRow, ht, hfind]

/-- Count of a flattened fuel-zero node. -/
theorem cnt_buildTree_zero (rows : List NavRow) (i : Int) (r : NavRow) :
    (flattenTree (buildTree rows 0 r)).countP (fun x => x.id == i) =
      if (r.id == i) = true then 1 else 0 := by
  rw [buildTree, flattenTree_node]
  simp [List.countP_cons]

/-- Count of a flattened node: head plus the children's subtree counts. -/
theorem cnt_buildTree_succ (rows : List NavRow) (i : Int) (f : Nat) (r : NavRow) :
    (flattenTree (buildTree rows (f + 1) r)).countP (fun x => x.id == i) =
      (if (r.id == i) = true then 1 else 0) +
        ((childRows rows r.id).map
          (fun c => (flattenTree (buildTree rows f c)).countP
            (fun x => x.id == i))).sum := by
  rw [buildTree, flattenTree_node, List.countP_cons, List.countP_flatten,
    List.map_map, List.map_map]
  simp only [Function.comp_def, Nat.add_comm]

/-- A sum of indicator values is a count. -/
theorem sum_ite_eq_countP {α : Type} (p : α → Prop) [DecidablePred p]
    (l : List α) :
    (l.map (fun x => if p x then 1 else 0)).sum =
      l.countP (fun x => decide (p x)) := by
  induction l with
  | nil => rfl
  | cons a t ih =>
      rw [List.map_cons, List.sum_cons, List.countP_cons, ih]
      by_cases hpa : p a <;> simp [hpa] <;> omega

/-- A predicate holding exactly at one member of a duplicate-free list
counts to one. -/
theorem countP_eq_one_of_unique {α : Type} (l : List α) (hnd : l.Nodup)
    (a : α) (ha : a ∈ l) (p : α → Bool)
    (hp : ∀ x ∈ l, (p x = true ↔ x = a)) : l.countP p = 1 := by
  induction l with
  | nil => cases ha
  | cons b t ih =>
      rw [List.nodup_cons] at hnd
      rw [List.countP_cons]
      by_cases hba : b = a
      · subst hba
        have hpb : p b = true := (hp b (List.mem_cons_self b t)).mpr rfl
        have hzero : t.countP p = 0 := by
          rw [List.countP_eq_zero]
          intro x hx hpx
          have := (hp x (List.mem_cons_of_mem b hx)).mp hpx
          exact hnd.1 (this ▸ hx)
        rw [hzero, hpb]
        simp
      · have hpb : p b = false := by
          cases hpb : p b with
          | false => rfl
          | true => exact absurd ((hp b (List.mem_cons_self b t)).mp hpb) hba
        have hat : a ∈ t := by
          cases List.mem_cons.mp ha with
          | inl h => exact absurd h.symm hba
          | inr h => exact h
        rw [hpb, ih hnd.2 hat (fun x hx => hp x (List.mem_cons_of_mem b hx))]
        simp

/-- The master count: in a duplicate-free row set, the subtree built from
`s` (which carries a depth certificate) contains the target row's id exactly
once when `s` is the ancestor of the target at the matching distance and the
fuel reaches down to the target, and never otherwise. -/
theorem navCount_master (rows : List NavRow)
    (hnd : (rows.map (fun r => r.id)).Nodup)
    (tgt : NavRow) (htgt : tgt ∈ rows) (dt g0 : Nat)
    (hdt : rowDepth rows g0 tgt = some dt) :
    ∀ f : Nat, ∀ s : NavRow, s ∈ rows → ∀ ds g : Nat,
      rowDepth rows g s = some ds →
      (flattenTree (buildTree rows f s)).countP (fun x => x.id == tgt.id) =
        if ds ≤ dt ∧ ancRow rows (dt - ds) tgt = some s ∧ dt - ds ≤ f
        then 1 else 0 := by
  intro f
  induction f with
  | zero =>
      intro s hs ds g hg
      rw [cnt_buildTree_zero]
      by_cases hsi : (s.id == tgt.id) = true
      · have hseq : s = tgt := id_inj rows hnd s tgt hs htgt (beq_iff_eq.mp hsi)
        have hds : ds = dt := by
          rw [hseq] at hg
          exact rowDepth_det rows g g0 tgt ds dt hg hdt
        have h0 : dt - ds = 0 := by omega
        rw [if_pos hsi, if_pos ⟨by omega, by rw [h0, ancRow, hseq], by omega⟩]
      · rw [if_neg hsi, if_neg]
        rintro ⟨h1, h2, h3⟩
        have h0 : dt - ds = 0 := Nat.le_zero.mp h3
        rw [h0, ancRow] at h2
        have hts : tgt = s := Option.some.inj h2
        rw [← hts] at hsi
        simp at hsi
  | succ f ih =>
      intro s hs ds g hg
      rw [cnt_buildTree_succ]
      have hchild : ∀ c ∈ childRows rows s.id,
          (fun c => (flattenTree (buildTree rows f c)).countP
            (fun x => x.id == tgt.id)) c =
          (fun c => if ds + 1 ≤ dt ∧ ancRow rows (dt - (ds + 1)) tgt = some c ∧
              dt - (ds + 1) ≤ f then 1 else 0) c := by
        intro c hc
        have hcd := childRows_depth rows hnd s hs g ds hg c hc
        exact ih c (mem_childRows_elim hc).1 (ds + 1) (g + 1) hcd
      rw [List.map_congr_left hchild, sum_ite_eq_countP]
      by_cases hsi : (s.id == tgt.id) = true
      · have hseq : s = tgt := id_inj rows hnd s tgt hs htgt (beq_iff_eq.mp hsi)
        have hds : ds = dt := by
          rw [hseq] at hg
          exact rowDepth_det rows g g0 tgt ds dt hg hdt
        have hzero : (childRows rows s.id).countP
            (fun c => decide (ds + 1 ≤ dt ∧
              ancRow rows (dt - (ds + 1)) tgt = some c ∧
              dt - (ds + 1) ≤ f)) = 0 := by
          rw [List.countP_eq_zero]
          intro c _ hc
          rw [decide_eq_true_iff] at hc
          omega
        rw [hzero, if_pos hsi, if_pos]
        exact ⟨by omega, by rw [show dt - ds = 0 from by omega, ancRow, hseq],
          by omega⟩
      · rw [if_neg hsi]
        by_cases hcond : ds ≤ dt ∧ ancRow rows (dt - ds) tgt = some s ∧
            dt - ds ≤ f + 1
        · obtain ⟨h1, h2, h3⟩ := hcond
          have hlt : ds < dt := by
            rcases Nat.lt_or_ge ds dt with h | h
            · exact h
            · exfalso
              have h0 : dt - ds = 0 := by omega
              rw [h0, ancRow] at h2
              have hts : tgt = s := Option.some.inj h2
              rw [← hts] at hsi
              simp at hsi
          have hk : dt - ds = (dt - (ds + 1)) + 1 := by omega
          rw [hk, ancRow] at h2
          obtain ⟨a, hanc, hamem, ga, hga⟩ :=
            anc_chain rows tgt htgt dt g0 hdt (dt - (ds + 1)) (by omega)
          rw [hanc] at h2
          have hpar : parentRow rows a = some s := h2
          have hat : truthyId a.parentId = true := by
            by_contra hat
            rw [parentRow, if_neg hat] at hpar
            cases hpar
          have hfind : rows.find? (fun x => x.id == a.parentId.getD 0) = some s := by
            rw [parentRow, if_pos hat] at hpar
            exact hpar
          have hgetd : a.parentId.getD 0 = s.id := by
            have := List.find?_some hfind
            exact (beq_iff_eq.mp this).symm
          have hachild : a ∈ childRows rows s.id :=
            mem_childRows_intro hamem hat hgetd
          have hone : (childRows rows s.id).countP
              (fun c => decide (ds + 1 ≤ dt ∧
                ancRow rows (dt - (ds + 1)) tgt = some c ∧
                dt - (ds + 1) ≤ f)) = 1 := by
            refine countP_eq_one_of_unique _ ?_ a hachild _ ?_
            · exact List.Nodup.filter _ (List.Nodup.of_map (fun r => r.id) hnd)
            · intro x hx
              rw [decide_eq_true_iff]
              constructor
              · rintro ⟨-, hx2, -⟩
                rw [hanc] at hx2
                exact (Option.some.inj hx2).symm
              · rintro rfl
                exact ⟨by omega, hanc, by omega⟩
          have hanc2 : ancRow rows (dt - ds) tgt = some s := by
            rw [hk, ancRow]
            simp only [hanc]
            exact hpar
          rw [hone, if_pos ⟨h1, hanc2, h3⟩]
        · rw [if_neg hcond]
          have hzero : (childRows rows s.id).countP
              (fun c => decide (ds + 1 ≤ dt ∧
                ancRow rows (dt - (ds + 1)) tgt = some c ∧
                dt - (ds + 1) ≤ f)) = 0 := by
            rw [List.countP_eq_zero]
            intro c hc hdec
            rw [decide_eq_true_iff] at hdec
            obtain ⟨hc1, hc2, hc3⟩ := hdec
            apply hcond
            refine ⟨by omega, ?_, by omega⟩
            rw [show dt - ds = (dt - (ds + 1)) + 1 from by omega, ancRow]
            simp only [hc2]
            obtain ⟨hcm, hct, hcp⟩ := mem_childRows_elim hc
            show parentRow rows c = some s
            rw [parentRow, if_pos hct, hcp]
            exact find?_id_nodup rows hnd s hs
          rw [hzero]

/-- The count over the flattened forest is the sum of the root subtree
counts. -/
theorem cnt_forest (rows : List NavRow) (i : Int) :
    (flattenForest (buildNavigationStructure rows)).countP (fun x => x.id == i) =
      ((rows.filter (fun r => !truthyId r.parentId)).map
        (fun r => (flattenTree (buildTree rows rows.length r)).countP
          (fun x => x.id == i))).sum := by
  rw [buildNavigationStructure, flattenForest, List.countP_flatten,
    List.map_map, List.map_map]
  simp only [Function.comp_def]

/-- In a duplicate-free row set, no subtree of another row ever contains the
id of a row whose parent reference misses the set. -/
theorem navCount_dangling (rows : List NavRow)
    (hnd : (rows.map (fun r => r.id)).Nodup)
    (tgt : NavRow) (htgt : tgt ∈ rows)
    (hdang : tgt.parentId.getD 0 ∉ rows.map (fun r => r.id)) :
    ∀ f : Nat, ∀ s : NavRow, s ∈ rows → s ≠ tgt →
      (flattenTree (buildTree rows f s)).countP (fun x => x.id == tgt.id) = 0 := by
  intro f
  induction f with
  | zero =>
      intro s hs hne
      rw [cnt_buildTree_zero, if_neg]
      intro hsi
      exact hne (id_inj rows hnd s tgt hs htgt (beq_iff_eq.mp hsi))
  | succ f ih =>
      intro s hs hne
      rw [cnt_buildTree_succ, if_neg]
      · have hsum : ((childRows rows s.id).map
            (fun c => (flattenTree (buildTree rows f c)).countP
              (fun x => x.id == tgt.id))).sum = 0 := by
          apply List.sum_eq_zero
          intro y hy
          obtain ⟨c, hc, rfl⟩ := List.mem_map.mp hy
          obtain ⟨hcm, hct, hcp⟩ := mem_childRows_elim hc
          refine ih c hcm ?_
          rintro rfl
          exact hdang (hcp ▸ List.mem_map_of_mem (fun r => r.id) hs)
        rw [hsum]
      · intro hsi
        exact hne (id_inj rows hnd s tgt hs htgt (beq_iff_eq.mp hsi))

set_option maxHeartbeats 1000000 in
/-- C1 (amended): over a fetched row set with distinct ids, (a) when every
row's parent chain resolves to a falsy-parent root within the fuel (the set
is parent-closed and acyclic), every input row appears exactly once in the
flattened hierarchy; and (b) a row whose `parentId` is truthy but matches no
id in the set never appears in the flattened hierarchy - it is dropped, not
promoted to the root list. -/
theorem navigationStructure_count (rows : List NavRow)
    (hnd : (rows.map (fun r => r.id)).Nodup) :
    ((∀ r ∈ rows, (rowDepth rows rows.length r).isSome = true) →
      ∀ tgt ∈ rows,
        (flattenForest (buildNavigationStructure rows)).countP
          (fun x => x.id == tgt.id) = 1) ∧
    (∀ tgt ∈ rows, truthyId tgt.parentId = true →
      tgt.parentId.getD 0 ∉ rows.map (fun r => r.id) →
      (flattenForest (buildNavigationStructure rows)).countP
        (fun x => x.id == tgt.id) = 0) := by
  constructor
  · intro hacyc tgt htgt
    obtain ⟨dt, hdt⟩ := Option.isSome_iff_exists.mp (hacyc tgt htgt)
    rw [cnt_forest]
    have hmap : ∀ r ∈ rows.filter (fun r => !truthyId r.parentId),
        (fun r => (flattenTree (buildTree rows rows.length r)).countP
          (fun x => x.id == tgt.id)) r =
        (fun r => if 0 ≤ dt ∧ ancRow rows (dt - 0) tgt = some r ∧
          dt - 0 ≤ rows.length then 1 else 0) r := by
      intro r hr
      obtain ⟨hrm, hrt⟩ := List.mem_filter.mp hr
      have hrt' : truthyId r.parentId = false := by simpa using hrt
      have hdep := rowDepth_zero_of_not_truthy rows 0 r hrt'
      exact navCount_master rows hnd tgt htgt dt rows.length hdt rows.length
        r hrm 0 0 hdep
    rw [List.map_congr_left hmap, sum_ite_eq_countP]
    obtain ⟨R, hanc, hRmem, gR, hgR⟩ :=
      anc_chain rows tgt htgt dt rows.length hdt dt (le_refl dt)
    have hR0 : rowDepth rows gR R = some 0 := by simpa using hgR
    have hRt : truthyId R.parentId = false :=
      rowDepth_zero_not_truthy rows gR R hR0
    have hRroots : R ∈ rows.filter (fun r => !truthyId r.parentId) :=
      List.mem_filter.mpr ⟨hRmem, by simp [hRt]⟩
    refine countP_eq_one_of_unique _
      (List.Nodup.filter _ (List.Nodup.of_map _ hnd)) R hRroots _ ?_
    intro x hx
    rw [decide_eq_true_iff]
    constructor
    · rintro ⟨-, hx2, -⟩
      rw [Nat.sub_zero, hanc] at hx2
      exact (Option.some.inj hx2).symm
    · rintro rfl
      refine ⟨Nat.zero_le dt, ?_, ?_⟩
      · rw [Nat.sub_zero]
        exact hanc
      · rw [Nat.sub_zero]
        exact rowDepth_le rows rows.length tgt dt hdt
  · intro tgt htgt htru hdang
    rw [cnt_forest]
    apply List.sum_eq_zero
    intro y hy
    obtain ⟨r, hr, rfl⟩ := List.mem_map.mp hy
    obtain ⟨hrm, hrt⟩ := List.mem_filter.mp hr
    refine navCount_dangling rows hnd tgt htgt hdang rows.length r hrm ?_
    rintro rfl
    rw [htru] at hrt
    simp at hrt

/-- A two-row acyclic navigation set: a root and its child. -/
def navRowsW : List NavRow :=
  [⟨1, "home", "/", none, 1, true⟩, ⟨2, "about", "/about", some 1, 2, true⟩]

/-- A navigation set with a dangling parent reference (no row with id 9). -/
def navRowsD : List NavRow :=
  [⟨1, "home", "/", none, 1, true⟩, ⟨3, "lost", "/x", some 9, 3, true⟩]

/-- Witness for C1: in the acyclic closed set the child row appears exactly
once in the flattened hierarchy; in the dangling set the orphan row appears
zero times. -/
theorem navigationStructure_count_witness :
    (flattenForest (buildNavigationStructure navRowsW)).countP
      (fun x => x.id == (⟨2, "about", "/about", some 1, 2, true⟩ : NavRow).id) = 1 ∧
    (flattenForest (buildNavigationStructure navRowsD)).countP
      (fun x => x.id == (⟨3, "lost", "/x", some 9, 3, true⟩ : NavRow).id) = 0 :=
  ⟨(navigationStructure_count navRowsW (by decide)).1 (by decide)
      ⟨2, "about", "/about", some 1, 2, true⟩ (by decide),
    (navigationStructure_count navRowsD (by decide)).2
      ⟨3, "lost", "/x", some 9, 3, true⟩ (by decide) (by decide) (by decide)⟩

/-- Counterexample for C1 as stated: a single visible row whose `parentId`
does not match any id in the set is dropped entirely - the returned root
list and the flattened hierarchy are empty, so the row neither appears
exactly once nor is promoted to the root list; a self-referential row is
likewise lost from the hierarchy. -/
theorem navigationStructure_counterexample :
    buildNavigationStructure [⟨2, "b", "/b", some 1, 1, true⟩] = [] ∧
    flattenForest (buildNavigationStructure [⟨2, "b", "/b", some 1, 1, true⟩]) = [] ∧
    buildNavigationStructure [⟨1, "a", "/a", some 1, 1, true⟩] = [] ∧
    flattenForest (buildNavigationStructure [⟨1, "a", "/a", some 1, 1, true⟩]) = [] :=
  ⟨rfl, rfl, rfl, rfl⟩
